import Mathlib

/-!
Verification development for the floweMobile ledger / referral / settlement
core.  The definitions below are a shallow embedding of the TypeScript
source: Firestore collections become association lists keyed by document
id, document updates become pure list transformations, numbers become
`Int` (with `Int.fdiv` for JavaScript `Math.floor` division and `ℚ` for
fractional interest rates), and each admin/user operation becomes a pure
function on a `DB` state.  Each definition's doc comment names the source
function it embeds.
-/

/-- Balance fields of a user document (`points` and `cash`). -/
inductive BalanceField
  | points
  | cash
  deriving DecidableEq, Repr

/-- Embedding of a `users/{id}` document: the fields the ledger core reads
and writes (src/unnamed/part_001, part_004, part_006). -/
structure UserDoc where
  username : String
  points : Int
  cash : Int
  referralCode : String
  referralCodeFriend : String
  approved : Bool
  referrals : List String
  deriving DecidableEq, Repr

/-- The `users` collection: an association list of document id and data. -/
abbrev Users := List (String × UserDoc)

/-- Firestore `getDoc` on the users collection (first entry with the id). -/
def getUser : Users → String → Option UserDoc
  | [], _ => none
  | (i, d) :: rest, uid => if i = uid then some d else getUser rest uid

/-- Firestore `updateDoc`/`batch.update` on a user document: rewrite the
data of every entry carrying the id (ids are unique in a real store). -/
def updateUser (us : Users) (uid : String) (f : UserDoc → UserDoc) : Users :=
  us.map fun p => if p.1 = uid then (p.1, f p.2) else p

/-- Firestore query `where('referralCode','==',code)` followed by
`querySnapshot.docs[0]` (src/unnamed/part_006 line 33, part_004 line 667). -/
def findByReferralCode (us : Users) (code : String) : Option (String × UserDoc) :=
  us.find? fun p => p.2.referralCode = code

/-- Firestore query `where('username','==',u)` followed by `docs[0]`
(src/unnamed/part_001 lines 170-186). -/
def findByUsername (us : Users) (uname : String) : Option (String × UserDoc) :=
  us.find? fun p => p.2.username = uname

/-- Embedding of `recipientIdentifier.startsWith('FBT')`
(src/unnamed/part_001 line 174), written over the character list so it
evaluates in the kernel. -/
def isReferralIdent (ident : String) : Bool :=
  match ident.data with
  | 'F' :: 'B' :: 'T' :: _ => true
  | _ => false

/-- Embedding of `recipientIdentifier.toLowerCase()`
(src/unnamed/part_001 line 176), written over the character list so it
evaluates in the kernel. -/
def lowerStr (s : String) : String :=
  String.mk (s.data.map Char.toLower)

/-- Recipient resolution of `transferPoints` (src/unnamed/part_001 lines
170-178): identifiers starting with `FBT` are referral codes, anything
else is a case-insensitive username. -/
def resolveRecipient (us : Users) (ident : String) : Option (String × UserDoc) :=
  if isReferralIdent ident then findByReferralCode us ident
  else findByUsername us (lowerStr ident)

/-- Transaction `type` tags appearing in the embedded operations. -/
inductive TxnType
  | point_transfer_out
  | point_transfer_in
  | referral_bonus_level (n : Nat)
  | investment_created
  | investment_approved
  | investment_declined
  | investment_completed
  | ultra_manual_bet
  | ultra_manual_cancelled
  | ultra_manual_win
  | withdrawal_approved
  | withdrawal_declined
  | loan_approved
  | admin_points_update
  | admin_cash_update
  deriving DecidableEq, Repr

/-- Structured rendering of the interpolated `description` strings: the
numeric parameters each template embeds are kept as data.  In particular
`investment_completed` records the profit `payout - amount`
(src/unnamed/part_004 line 182). -/
inductive Descr
  | transferOut (amount : Int) (toUser : String)
  | transferIn (amount : Int) (fromUser : String)
  | referralBonus (level : Nat) (amount : Int) (fld : BalanceField)
  | investmentCreated (amount : Int)
  | investmentApproved (amount : Int) (rate : ℚ)
  | investmentDeclined (amount : Int)
  | investmentCompleted (amount : Int) (rate : ℚ) (profit : Int)
  | ultraBet (amount : Int)
  | ultraCancelled (amount : Int)
  | ultraWin (amount : Int)
  | withdrawalApproved (fee : Int)
  | withdrawalDeclined
  | loanApproved
  | adminAdjust (fld : BalanceField) (difference : Int)
  deriving DecidableEq, Repr

/-- Embedding of a `transactions/{id}` document.  `amount` is optional
because some log entries (e.g. `investment_approved`) are written without
an amount field; `balanceAfter` is the optional `(points, cash)` snapshot. -/
structure Txn where
  userId : String
  amount : Option Int
  type : TxnType
  desc : Descr
  balanceAfter : Option (Int × Int)
  deriving DecidableEq, Repr

/-- Status of a `requests/{id}` workflow document. -/
inductive ReqStatus
  | pending
  | approved
  | declined
  deriving DecidableEq, Repr

/-- Payload of a `requests/{id}` document, by request `type`. -/
inductive ReqPayload
  | pointTransfer (recipientId : String) (recipientUsername : String) (amount : Int)
  | vipUpgrade (currentLevel targetLevel : Nat)
  | withdrawal (amount : Int)
  | loan (amount : Int)
  deriving DecidableEq, Repr

/-- Embedding of a `requests/{id}` document. -/
structure Request where
  userId : String
  username : String
  payload : ReqPayload
  status : ReqStatus
  declineReason : Option String
  deriving DecidableEq, Repr

/-- Status of an `investments/{id}` document. -/
inductive InvStatus
  | pending
  | approved
  | completed
  | declined
  deriving DecidableEq, Repr

/-- Embedding of an `investments/{id}` document. -/
structure Investment where
  userId : String
  username : String
  amount : Int
  interestRate : ℚ
  status : InvStatus
  deriving DecidableEq, Repr

/-- Status of an `ultraManualBets/{id}` document. -/
inductive UltraStatus
  | pending
  | won
  | lost
  | cancelled
  deriving DecidableEq, Repr

/-- Embedding of an `ultraManualBets/{id}` document. -/
structure UltraBet where
  userId : String
  username : String
  amount : Int
  note : String
  status : UltraStatus
  deriving DecidableEq, Repr

/-- Winning-color assignment of a dice number
(src/src/components/admin/games/dice-admin.tsx line 18). -/
inductive DiceColor
  | none
  | white
  | red
  | green
  deriving DecidableEq, Repr

/-- The admin's per-number color mapping, a finite map from dice number to
color; `colorAt` mirrors `numberColors[bet.chosenNumber] || 'none'`. -/
abbrev NumberColors := List (Nat × DiceColor)

/-- Lookup in the color mapping, defaulting to `none`
(dice-admin.tsx line 108). -/
def colorAt (nc : NumberColors) (n : Nat) : DiceColor :=
  match nc.find? (fun p => p.1 = n) with
  | some p => p.2
  | Option.none => DiceColor.none

/-- Validation `Object.values(numberColors).some(c => c !== 'none')`
(dice-admin.tsx line 89). -/
def hasWinner (nc : NumberColors) : Bool :=
  nc.any fun p => p.2 ≠ DiceColor.none

/-- Status of a `diceRounds/{id}` document. -/
inductive RoundStatus
  | openR
  | closedR
  deriving DecidableEq, Repr

/-- Embedding of a `diceRounds/{id}` document. -/
structure DiceRound where
  status : RoundStatus
  numberColors : NumberColors
  deriving DecidableEq, Repr

/-- Status of a `diceBets/{id}` document. -/
inductive DiceStatus
  | pending
  | won
  | lost
  deriving DecidableEq, Repr

/-- Payout category of a resolved dice bet (dice-admin.tsx line 110). -/
inductive PayoutType
  | cash
  | fbt
  deriving DecidableEq, Repr

/-- Embedding of a `diceBets/{id}` document. -/
structure DiceBet where
  userId : String
  username : String
  roundId : String
  chosenNumber : Nat
  amount : Int
  status : DiceStatus
  payout : Int
  payoutType : Option PayoutType
  resultColor : Option DiceColor
  deriving DecidableEq, Repr

/-- The whole document store touched by the ledger core: one association
list per collection plus the append-only transaction log. -/
structure DB where
  users : Users
  txns : List Txn
  requests : List (String × Request)
  investments : List (String × Investment)
  ultraBets : List (String × UltraBet)
  diceRounds : List (String × DiceRound)
  diceBets : List (String × DiceBet)
  deriving DecidableEq, Repr

/-- Generic association-list lookup (Firestore `getDoc` by id). -/
def lookupDoc {α : Type} : List (String × α) → String → Option α
  | [], _ => none
  | (i, d) :: rest, did => if i = did then some d else lookupDoc rest did

/-- Generic association-list update (Firestore `updateDoc` by id). -/
def updateDocById {α : Type} (l : List (String × α)) (did : String) (f : α → α) :
    List (String × α) :=
  l.map fun p => if p.1 = did then (p.1, f p.2) else p

/-- Payout and category of a dice bet under a color mapping
(dice-admin.tsx lines 108-117): `white` pays `floor(amount/10)*5` as
`cash`, `red`/`green` pay `floor(amount/10)*20` as `fbt`. -/
def dicePayout (nc : NumberColors) (b : DiceBet) : Int × Option PayoutType :=
  match colorAt nc b.chosenNumber with
  | DiceColor.white => (b.amount.fdiv 10 * 5, some PayoutType.cash)
  | DiceColor.red => (b.amount.fdiv 10 * 20, some PayoutType.fbt)
  | DiceColor.green => (b.amount.fdiv 10 * 20, some PayoutType.fbt)
  | DiceColor.none => (0, Option.none)

/-- The `batch.update` applied to each bet document during resolution
(dice-admin.tsx lines 118-124). -/
def resolveBet (nc : NumberColors) (b : DiceBet) : DiceBet :=
  let color := colorAt nc b.chosenNumber
  let pp := dicePayout nc b
  { b with
    status := if color = DiceColor.none then DiceStatus.lost else DiceStatus.won,
    resultColor := some color,
    payout := pp.1,
    payoutType := pp.2 }

/-- The conditional balance write for one bet (dice-admin.tsx lines
125-132): only `fbt` winners with positive payout get a write, and that
write SETS `points` to `bet.amount + payout` rather than incrementing. -/
def creditBet (nc : NumberColors) (us : Users) (b : DiceBet) : Users :=
  let color := colorAt nc b.chosenNumber
  let pp := dicePayout nc b
  if color ≠ DiceColor.none ∧ pp.1 > 0 then
    if pp.2 = some PayoutType.fbt then
      updateUser us b.userId fun d => { d with points := b.amount + pp.1 }
    else us
  else us

/-- First commit of `closeRoundAndResolve` (dice-admin.tsx lines 97-101):
a standalone `updateDoc` that closes the round and stores the mapping. -/
def closeRoundCommit (rid : String) (nc : NumberColors) (db : DB) : DB :=
  let rounds := updateDocById db.diceRounds rid
    (fun r => { r with status := RoundStatus.closedR, numberColors := nc })
  { db with diceRounds := rounds }

/-- Second commit of `closeRoundAndResolve` (dice-admin.tsx lines 103-134):
one `writeBatch` that resolves every bet of the round and applies the
winner balance writes. -/
def resolveBetsCommit (rid : String) (nc : NumberColors) (db : DB) : DB :=
  let bets := db.diceBets.map
    (fun p => if p.2.roundId = rid then (p.1, resolveBet nc p.2) else p)
  let users := (db.diceBets.filter fun p => p.2.roundId = rid).foldl
    (fun us p => creditBet nc us p.2) db.users
  { db with diceBets := bets, users := users }

/-- The sequence of states a reader of the store can observe while
`closeRoundAndResolve` runs (dice-admin.tsx lines 83-142): the initial
state, the state after the round-closing `updateDoc`, and the state after
the bet-resolution batch.  Validation failures commit nothing. -/
def closeRoundAndResolveStates (rid : String) (nc : NumberColors) (db : DB) : List DB :=
  match lookupDoc db.diceRounds rid with
  | Option.none => [db]
  | some r =>
    if r.status = RoundStatus.openR ∧ hasWinner nc then
      [db, closeRoundCommit rid nc db, resolveBetsCommit rid nc (closeRoundCommit rid nc db)]
    else [db]

/-- Final state of `closeRoundAndResolve`. -/
def closeRoundAndResolve (rid : String) (nc : NumberColors) (db : DB) : DB :=
  match lookupDoc db.diceRounds rid with
  | Option.none => db
  | some r =>
    if r.status = RoundStatus.openR ∧ hasWinner nc then
      resolveBetsCommit rid nc (closeRoundCommit rid nc db)
    else db

/-- Deterministic fresh document id for `addDoc` in the embedding. -/
def freshId {α : Type} (l : List (String × α)) : String :=
  "doc" ++ toString l.length

/-- Embedding of `transferPoints` (src/unnamed/part_001 lines 145-258).
`none` models a thrown validation error: every failure happens before any
write.  With `directTransfer` the two balance writes and two log entries
are applied; otherwise a pending `point_transfer` request is created and
nothing else changes. -/
def transferPoints (db : DB) (userId recipientIdentifier : String) (amount : Int)
    (directTransfer : Bool) : Option DB :=
  if userId = "" then none
  else if recipientIdentifier = "" then none
  else if amount ≤ 0 then none
  else
    match getUser db.users userId with
    | Option.none => none
    | some userData =>
      if userData.points < amount then none
      else
        match resolveRecipient db.users recipientIdentifier with
        | Option.none => none
        | some (recipientId, recipientData) =>
          if recipientId = userId then none
          else if directTransfer then
            let newSenderPoints := userData.points - amount
            let us1 := updateUser db.users userId
              (fun d => { d with points := newSenderPoints })
            let newRecipientPoints := recipientData.points + amount
            let us2 := updateUser us1 recipientId
              (fun d => { d with points := newRecipientPoints })
            let t1 : Txn :=
              { userId := userId, amount := some (-amount),
                type := TxnType.point_transfer_out,
                desc := Descr.transferOut amount recipientData.username,
                balanceAfter := some (newSenderPoints, userData.cash) }
            let t2 : Txn :=
              { userId := recipientId, amount := some amount,
                type := TxnType.point_transfer_in,
                desc := Descr.transferIn amount userData.username,
                balanceAfter := some (newRecipientPoints, recipientData.cash) }
            some { db with users := us2, txns := db.txns ++ [t1, t2] }
          else
            let req : Request :=
              { userId := userId, username := userData.username,
                payload := ReqPayload.pointTransfer recipientId recipientData.username amount,
                status := ReqStatus.pending, declineReason := Option.none }
            some { db with requests := db.requests ++ [(freshId db.requests, req)] }

/-- Embedding of `handleTransferRequest` (src/src/components/admin/vip-admin.tsx
lines 252-354).  The sender's balance is re-read first; if it no longer
covers the amount the request is auto-declined with a recorded reason and
no balance is touched, whichever button the admin pressed. -/
def handleTransferRequest (db : DB) (reqId : String) (approve : Bool) : Option DB :=
  match lookupDoc db.requests reqId with
  | Option.none => none
  | some request =>
    match request.payload with
    | ReqPayload.pointTransfer recipientId recipientUsername amount =>
      match getUser db.users request.userId with
      | Option.none => none
      | some senderData =>
        if senderData.points < amount then
          let reqs := updateDocById db.requests reqId
            (fun r => { r with status := ReqStatus.declined,
                               declineReason := some "Insufficient points" })
          some { db with requests := reqs }
        else if approve then
          match getUser db.users recipientId with
          | Option.none => none
          | some recipientData =>
            let newSenderPoints := senderData.points - amount
            let us1 := updateUser db.users request.userId
              (fun d => { d with points := newSenderPoints })
            let newRecipientPoints := recipientData.points + amount
            let us2 := updateUser us1 recipientId
              (fun d => { d with points := newRecipientPoints })
            let reqs := updateDocById db.requests reqId
              (fun r => { r with status := ReqStatus.approved })
            let t1 : Txn :=
              { userId := request.userId, amount := some (-amount),
                type := TxnType.point_transfer_out,
                desc := Descr.transferOut amount recipientUsername,
                balanceAfter := some (newSenderPoints, senderData.cash) }
            let t2 : Txn :=
              { userId := recipientId, amount := some amount,
                type := TxnType.point_transfer_in,
                desc := Descr.transferIn amount request.username,
                balanceAfter := some (newRecipientPoints, recipientData.cash) }
            some { db with users := us2, requests := reqs, txns := db.txns ++ [t1, t2] }
        else
          let reqs := updateDocById db.requests reqId
            (fun r => { r with status := ReqStatus.declined })
          some { db with requests := reqs }
    | _ => none

/-- Embedding of `processRequest` (src/unnamed/part_004 lines 835-937):
withdrawal and loan requests.  Approving a withdrawal only marks the
request and logs (the cash was debited at request creation); approving a
loan credits points; declining a withdrawal refunds the cash; every
decline marks the request declined. -/
def processRequest (db : DB) (reqId : String) (approve : Bool) (fee : Int) : Option DB :=
  match lookupDoc db.requests reqId with
  | Option.none => none
  | some request =>
    match getUser db.users request.userId with
    | Option.none => none
    | some userData =>
      if approve then
        match request.payload with
        | ReqPayload.withdrawal amount =>
          let reqs := updateDocById db.requests reqId
            (fun r => { r with status := ReqStatus.approved })
          let t : Txn :=
            { userId := request.userId, amount := some (-amount),
              type := TxnType.withdrawal_approved,
              desc := Descr.withdrawalApproved fee,
              balanceAfter := some (userData.points, userData.cash) }
          some { db with requests := reqs, txns := db.txns ++ [t] }
        | ReqPayload.loan amount =>
          let us := updateUser db.users request.userId
            (fun d => { d with points := d.points + amount })
          let reqs := updateDocById db.requests reqId
            (fun r => { r with status := ReqStatus.approved })
          let t : Txn :=
            { userId := request.userId, amount := some amount,
              type := TxnType.loan_approved,
              desc := Descr.loanApproved,
              balanceAfter := some (userData.points + amount, userData.cash) }
          some { db with users := us, requests := reqs, txns := db.txns ++ [t] }
        | _ => some db
      else
        let db1 :=
          match request.payload with
          | ReqPayload.withdrawal amount =>
            let us := updateUser db.users request.userId
              (fun d => { d with cash := d.cash + amount })
            let t : Txn :=
              { userId := request.userId, amount := some amount,
                type := TxnType.withdrawal_declined,
                desc := Descr.withdrawalDeclined,
                balanceAfter := some (userData.points, userData.cash + amount) }
            { db with users := us, txns := db.txns ++ [t] }
          | _ => db
        let reqs := updateDocById db1.requests reqId
          (fun r => { r with status := ReqStatus.declined })
        some { db1 with requests := reqs }

/-- Modelled from the spec: `processUpgradeRequest` lives in
`@/services/vipService`, which is not among the source files.  Per spec
sections 4.6 and 5, it instantiates the generic request workflow: the
request's status becomes `approved` or `declined` with a processing
timestamp, and since an upgrade request never moved funds, neither
transition touches any balance. -/
def processUpgradeRequest (db : DB) (reqId : String) (approve : Bool) : Option DB :=
  match lookupDoc db.requests reqId with
  | Option.none => none
  | some request =>
    match request.payload with
    | ReqPayload.vipUpgrade _ _ =>
      let newStatus := if approve then ReqStatus.approved else ReqStatus.declined
      let reqs := updateDocById db.requests reqId
        (fun r => { r with status := newStatus })
      some { db with requests := reqs }
    | _ => none

/-- Embedding of `updateUserBalance` (src/unnamed/part_004 lines 763-803):
the admin enters a new amount for the field; the code computes the signed
difference to the current value and applies it as an increment, logging an
`admin_*_update` entry.  There is no sign or range validation beyond the
`parseInt` check modelled by the `Int` parameter. -/
def updateUserBalance (db : DB) (userId : String) (fld : BalanceField) (amount : Int) :
    Option DB :=
  match getUser db.users userId with
  | Option.none => none
  | some userData =>
    let currentAmount := match fld with
      | BalanceField.points => userData.points
      | BalanceField.cash => userData.cash
    let difference := amount - currentAmount
    let us := updateUser db.users userId (fun d =>
      match fld with
      | BalanceField.points => { d with points := d.points + difference }
      | BalanceField.cash => { d with cash := d.cash + difference })
    let t : Txn :=
      { userId := userId, amount := some difference,
        type := match fld with
          | BalanceField.points => TxnType.admin_points_update
          | BalanceField.cash => TxnType.admin_cash_update,
        desc := Descr.adminAdjust fld difference,
        balanceAfter := Option.none }
    some { db with users := us, txns := db.txns ++ [t] }

/-- Embedding of the investment form submit
(src/src/components/games/game-panel.tsx `handleSubmit`): validates the
amount, creates a pending investment with rate 0, debits points and logs
`investment_created`. -/
def createInvestment (db : DB) (userId : String) (amount : Int) : Option DB :=
  match getUser db.users userId with
  | Option.none => none
  | some userData =>
    if amount ≤ 0 then none
    else if userData.points < amount then none
    else
      let inv : Investment :=
        { userId := userId, username := userData.username, amount := amount,
          interestRate := 0, status := InvStatus.pending }
      let us := updateUser db.users userId
        (fun d => { d with points := userData.points - amount })
      let t : Txn :=
        { userId := userId, amount := some (-amount),
          type := TxnType.investment_created,
          desc := Descr.investmentCreated amount,
          balanceAfter := some (userData.points - amount, userData.cash) }
      let invs2 := db.investments ++ [(freshId db.investments, inv)]
      some { db with users := us, txns := db.txns ++ [t], investments := invs2 }

/-- Embedding of `submitApproval` (src/unnamed/part_004 lines 199-241):
requires a positive interest rate, sets the investment approved with that
rate and logs `investment_approved` (the strictly-future release-date
check is a wall-clock validation outside this state model). -/
def submitApproval (db : DB) (invId : String) (rate : ℚ) : Option DB :=
  if rate ≤ 0 then none
  else
    match lookupDoc db.investments invId with
    | Option.none => none
    | some inv =>
      let invs := updateDocById db.investments invId
        (fun i => { i with status := InvStatus.approved, interestRate := rate })
      let t : Txn :=
        { userId := inv.userId, amount := Option.none,
          type := TxnType.investment_approved,
          desc := Descr.investmentApproved inv.amount rate,
          balanceAfter := Option.none }
      some { db with investments := invs, txns := db.txns ++ [t] }

/-- Embedding of `handleDecline` for investments (src/unnamed/part_004
lines 92-142): marks the investment declined, returns exactly the
pre-debited amount to the owner's points and logs `investment_declined`. -/
def handleDecline (db : DB) (invId : String) : Option DB :=
  match lookupDoc db.investments invId with
  | Option.none => none
  | some inv =>
    match getUser db.users inv.userId with
    | Option.none => none
    | some userData =>
      let invs := updateDocById db.investments invId
        (fun i => { i with status := InvStatus.declined })
      let us := updateUser db.users inv.userId
        (fun d => { d with points := userData.points + inv.amount })
      let t : Txn :=
        { userId := inv.userId, amount := some inv.amount,
          type := TxnType.investment_declined,
          desc := Descr.investmentDeclined inv.amount,
          balanceAfter := some (userData.points + inv.amount, userData.cash) }
      some { db with users := us, investments := invs, txns := db.txns ++ [t] }

/-- Payout of a completed investment (src/unnamed/part_004 line 163):
`Math.floor(investment.amount * (1 + investment.interestRate / 100))`. -/
def investmentPayout (amount : Int) (rate : ℚ) : Int :=
  Int.floor ((amount : ℚ) * (1 + rate / 100))

/-- Embedding of `handleComplete` (src/unnamed/part_004 lines 144-197):
marks the investment completed, credits the payout to points and logs
`investment_completed` whose description records the profit
`payout - amount`. -/
def handleComplete (db : DB) (invId : String) : Option DB :=
  match lookupDoc db.investments invId with
  | Option.none => none
  | some inv =>
    match getUser db.users inv.userId with
    | Option.none => none
    | some userData =>
      let payoutAmount := investmentPayout inv.amount inv.interestRate
      let invs := updateDocById db.investments invId
        (fun i => { i with status := InvStatus.completed })
      let us := updateUser db.users inv.userId
        (fun d => { d with points := userData.points + payoutAmount })
      let t : Txn :=
        { userId := inv.userId, amount := some payoutAmount,
          type := TxnType.investment_completed,
          desc := Descr.investmentCompleted inv.amount inv.interestRate
            (payoutAmount - inv.amount),
          balanceAfter := some (userData.points + payoutAmount, userData.cash) }
      some { db with users := us, investments := invs, txns := db.txns ++ [t] }

/-- Embedding of the Ultra Manual bet form (src/unnamed/part_005
`handleSubmit`): validates amount and note, creates a pending bet, debits
points and logs `ultra_manual_bet`. -/
def placeUltraBet (db : DB) (userId : String) (amount : Int) (note : String) : Option DB :=
  match getUser db.users userId with
  | Option.none => none
  | some userData =>
    if amount ≤ 0 then none
    else if userData.points < amount then none
    else if note = "" then none
    else if 100 < note.length then none
    else
      let bet : UltraBet :=
        { userId := userId, username := userData.username, amount := amount,
          note := note, status := UltraStatus.pending }
      let us := updateUser db.users userId
        (fun d => { d with points := userData.points - amount })
      let t : Txn :=
        { userId := userId, amount := some (-amount),
          type := TxnType.ultra_manual_bet,
          desc := Descr.ultraBet amount,
          balanceAfter := some (userData.points - amount, userData.cash) }
      let bets2 := db.ultraBets ++ [(freshId db.ultraBets, bet)]
      some { db with users := us, txns := db.txns ++ [t], ultraBets := bets2 }

/-- Embedding of `cancelBet` (src/unnamed/part_004 lines 1347-1388): one
batch marks the bet cancelled, increments the owner's points by the bet
amount and logs `ultra_manual_cancelled`. -/
def cancelBet (db : DB) (betId : String) : Option DB :=
  match lookupDoc db.ultraBets betId with
  | Option.none => none
  | some bet =>
    match getUser db.users bet.userId with
    | Option.none => none
    | some _ =>
      let bets := updateDocById db.ultraBets betId
        (fun b => { b with status := UltraStatus.cancelled })
      let us := updateUser db.users bet.userId
        (fun d => { d with points := d.points + bet.amount })
      let t : Txn :=
        { userId := bet.userId, amount := some bet.amount,
          type := TxnType.ultra_manual_cancelled,
          desc := Descr.ultraCancelled bet.amount,
          balanceAfter := Option.none }
      some { db with users := us, ultraBets := bets, txns := db.txns ++ [t] }

/-- Embedding of `processBet` (src/unnamed/part_004 lines 1390-1444): one
batch marks the bet won or lost; on a win with a non-zero amount it
increments the winner's points and logs `ultra_manual_win`. -/
def processBet (db : DB) (betId : String) (isWin : Bool) (winAmount : Option Int) :
    Option DB :=
  match lookupDoc db.ultraBets betId with
  | Option.none => none
  | some bet =>
    let bets := updateDocById db.ultraBets betId
      (fun b => { b with status := if isWin then UltraStatus.won else UltraStatus.lost })
    if isWin ∧ winAmount.getD 0 ≠ 0 then
      match getUser db.users bet.userId with
      | Option.none => none
      | some _ =>
        let w := winAmount.getD 0
        let us := updateUser db.users bet.userId
          (fun d => { d with points := d.points + w })
        let t : Txn :=
          { userId := bet.userId, amount := some w,
            type := TxnType.ultra_manual_win,
            desc := Descr.ultraWin w,
            balanceAfter := Option.none }
        some { db with users := us, ultraBets := bets, txns := db.txns ++ [t] }
    else
      some { db with ultraBets := bets }

/-- Embedding of `handleWinSubmit` (src/unnamed/part_004 lines 1446-1456):
the public entry point for approving an Ultra Manual win validates the win
amount is a positive number before delegating to `processBet`. -/
def handleWinSubmit (db : DB) (betId : String) (winAmount : Int) : Option DB :=
  if winAmount ≤ 0 then none
  else processBet db betId true (some winAmount)

/-- Embedding of the dice bet form `handleBet`
(src/src/components/games/dice-game.tsx lines 77-111): requires an open
round and a sufficient balance, creates a pending bet and debits points
(no transaction log entry is written for a dice bet). -/
def placeDiceBet (db : DB) (userId : String) (num : Nat) (amount : Int)
    (roundId : String) : Option DB :=
  match lookupDoc db.diceRounds roundId with
  | Option.none => none
  | some r =>
    if r.status ≠ RoundStatus.openR then none
    else
      match getUser db.users userId with
      | Option.none => none
      | some userData =>
        if amount ≤ 0 then none
        else if userData.points < amount then none
        else
          let bet : DiceBet :=
            { userId := userId, username := userData.username, roundId := roundId,
              chosenNumber := num, amount := amount, status := DiceStatus.pending,
              payout := 0, payoutType := Option.none, resultColor := Option.none }
          let us := updateUser db.users userId
            (fun d => { d with points := userData.points - amount })
          let bets2 := db.diceBets ++ [(freshId db.diceBets, bet)]
          some { db with users := us, diceBets := bets2 }

/-- The per-level referral bonus schedule (src/unnamed/part_006 lines
22-24, src/unnamed/part_004 lines 656-658): levels 1..5 pay 100/5/5/10/30,
level 1 to `points` and levels 2-5 to `cash`. -/
def bonusLevels : List Int := [100, 5, 5, 10, 30]

/-- The field credited at each level (src/unnamed/part_006 line 24). -/
def bonusGive : List BalanceField :=
  [BalanceField.points, BalanceField.cash, BalanceField.cash,
   BalanceField.cash, BalanceField.cash]

/-- The schedule with explicit level numbers, zipping `bonusLevels` with
`bonusGive` in loop order. -/
def referralLevels : List (Nat × Int × BalanceField) :=
  [(1, 100, BalanceField.points), (2, 5, BalanceField.cash),
   (3, 5, BalanceField.cash), (4, 10, BalanceField.cash),
   (5, 30, BalanceField.cash)]

/-- The `batch.update` on one referrer (src/unnamed/part_006 lines 57-60):
`arrayUnion` of the approved user into `referrals` plus an `increment` of
the level's bonus on the level's field. -/
def creditReferrer (newUserId : String) (amt : Int) (fld : BalanceField)
    (d : UserDoc) : UserDoc :=
  { d with
    referrals := if newUserId ∈ d.referrals then d.referrals else d.referrals ++ [newUserId],
    points := if fld = BalanceField.points then d.points + amt else d.points,
    cash := if fld = BalanceField.cash then d.cash + amt else d.cash }

/-- The `referral_bonus_level_N` log entry for one referrer
(src/unnamed/part_006 lines 63-75). -/
def referralTxn (rid : String) (rdata : UserDoc) (lvl : Nat) (amt : Int)
    (fld : BalanceField) : Txn :=
  { userId := rid, amount := some amt,
    type := TxnType.referral_bonus_level lvl,
    desc := Descr.referralBonus lvl amt fld,
    balanceAfter := some
      (rdata.points + (if fld = BalanceField.points then amt else 0),
       rdata.cash + (if fld = BalanceField.cash then amt else 0)) }

/-- The referral walk loop (src/unnamed/part_006 lines 30-79): one
recursion step per schedule level, stopping on a sentinel code, a missing
referrer, or a referrer already in the per-invocation visited set.
Returns the users, the log, and the list of credited referrer ids in
walk order. -/
def walkReferralChain (newUserId : String) :
    List (Nat × Int × BalanceField) → String → List String → Users → List Txn →
    Users × List Txn × List String
  | [], _, _, us, ts => (us, ts, [])
  | (lvl, amt, fld) :: rest, code, visited, us, ts =>
    if code = "" ∨ code = "Not set" then (us, ts, [])
    else
      match findByReferralCode us code with
      | Option.none => (us, ts, [])
      | some (rid, rdata) =>
        if rid ∈ visited then (us, ts, [])
        else
          let us1 := updateUser us rid (creditReferrer newUserId amt fld)
          let r := walkReferralChain newUserId rest rdata.referralCodeFriend
            (rid :: visited) us1 (ts ++ [referralTxn rid rdata lvl amt fld])
          (r.1, r.2.1, rid :: r.2.2)

/-- Embedding of `processReferralBonuses` (src/unnamed/part_006 lines
10-87): runs the walk from the new user's referrer code with an empty
visited set; also returns the credited referrer ids. -/
def processReferralBonuses (db : DB) (userId referralCodeFriend : String) :
    DB × List String :=
  let r := walkReferralChain userId referralLevels referralCodeFriend [] db.users db.txns
  ({ db with users := r.1, txns := r.2.1 }, r.2.2)

/-- Embedding of `approveUser` (src/unnamed/part_004 lines 640-721): marks
the user approved and runs the same referral walk in the same batch. -/
def approveUser (db : DB) (userId : String) : Option DB :=
  match getUser db.users userId with
  | Option.none => none
  | some userData =>
    let us1 := updateUser db.users userId (fun d => { d with approved := true })
    let db1 := { db with users := us1 }
    some (processReferralBonuses db1 userId userData.referralCodeFriend).1

/-- The operations generated from the public contracts of the ledger core
(claim C2's operation alphabet): transfers, request approvals and
declines, bet placement, round settlement, the investment lifecycle and
the admin balance adjustment. -/
inductive Op
  | transfer (userId recipientIdentifier : String) (amount : Int) (direct : Bool)
  | transferRequestProcess (reqId : String) (approve : Bool)
  | requestProcess (reqId : String) (approve : Bool) (fee : Int)
  | upgradeProcess (reqId : String) (approve : Bool)
  | adminBalance (userId : String) (fld : BalanceField) (amount : Int)
  | investCreate (userId : String) (amount : Int)
  | investApprove (invId : String) (rate : ℚ)
  | investDecline (invId : String)
  | investComplete (invId : String)
  | ultraPlace (userId : String) (amount : Int) (note : String)
  | ultraCancel (betId : String)
  | ultraWin (betId : String) (winAmount : Int)
  | ultraLose (betId : String)
  | dicePlace (userId : String) (num : Nat) (amount : Int) (roundId : String)
  | diceResolve (roundId : String) (nc : NumberColors)
  | userApprove (userId : String)

/-- Dispatch an operation to its embedded source function.  `none` means
the operation failed its validation (a thrown error) before any write. -/
def runOp : Op → DB → Option DB
  | Op.transfer u r a d, db => transferPoints db u r a d
  | Op.transferRequestProcess rid ap, db => handleTransferRequest db rid ap
  | Op.requestProcess rid ap fee, db => processRequest db rid ap fee
  | Op.upgradeProcess rid ap, db => processUpgradeRequest db rid ap
  | Op.adminBalance uid fld amt, db => updateUserBalance db uid fld amt
  | Op.investCreate uid amt, db => createInvestment db uid amt
  | Op.investApprove iid rate, db => submitApproval db iid rate
  | Op.investDecline iid, db => handleDecline db iid
  | Op.investComplete iid, db => handleComplete db iid
  | Op.ultraPlace uid amt note, db => placeUltraBet db uid amt note
  | Op.ultraCancel bid, db => cancelBet db bid
  | Op.ultraWin bid w, db => handleWinSubmit db bid w
  | Op.ultraLose bid, db => processBet db bid false Option.none
  | Op.dicePlace uid n amt rid, db => placeDiceBet db uid n amt rid
  | Op.diceResolve rid nc, db => some (closeRoundAndResolve rid nc db)
  | Op.userApprove uid, db => approveUser db uid

/-- State after an operation: a failed validation leaves the store as it
was. -/
def applyOp (op : Op) (db : DB) : DB :=
  (runOp op db).getD db

/-- Non-negativity of one user document's balances. -/
def nonNegUser (d : UserDoc) : Prop :=
  0 ≤ d.points ∧ 0 ≤ d.cash

/-- Non-negativity of every balance in the users collection. -/
def nonNegUsers (us : Users) : Prop :=
  ∀ p ∈ us, nonNegUser p.2

/-- Well-formedness of a stored request payload: amounts are non-negative
(request creation validates `amount > 0`). -/
def payloadWF : ReqPayload → Prop
  | ReqPayload.pointTransfer _ _ a => 0 ≤ a
  | ReqPayload.withdrawal a => 0 ≤ a
  | ReqPayload.loan a => 0 ≤ a
  | ReqPayload.vipUpgrade _ _ => True

/-- Store invariant: document ids of users are unique, balances are
non-negative, and every stored amount and interest rate is non-negative
(each creation path validates positivity). -/
def WF (db : DB) : Prop :=
  (db.users.map Prod.fst).Nodup ∧
  nonNegUsers db.users ∧
  (∀ p ∈ db.requests, payloadWF p.2.payload) ∧
  (∀ p ∈ db.investments, 0 ≤ p.2.amount ∧ 0 ≤ p.2.interestRate) ∧
  (∀ p ∈ db.ultraBets, 0 ≤ p.2.amount) ∧
  (∀ p ∈ db.diceBets, 0 ≤ p.2.amount)

/-- Guard for the amended balance invariant: the admin balance
adjustment is the one operation whose input the code does not validate,
so the invariant only survives it when the entered amount is
non-negative.  Every other operation carries `True`. -/
def opGuard : Op → Prop
  | Op.adminBalance _ _ amount => 0 ≤ amount
  | _ => True

/-- The referral ancestor chain visible in a users collection: follow
`referralCode` links from a starting code for at most `fuel` hops,
stopping at a sentinel code or an unresolvable code.  This is the
specification-side description of the chain that the walk should credit. -/
def chainFrom (us : Users) : Nat → String → List String
  | 0, _ => []
  | fuel + 1, code =>
    if code = "" ∨ code = "Not set" then []
    else
      match findByReferralCode us code with
      | Option.none => []
      | some (rid, d) => rid :: chainFrom us fuel d.referralCodeFriend

/-- Projection of a transaction to the observable fields claims talk
about: owner, type tag and signed amount. -/
def txnSummary (t : Txn) : String × TxnType × Option Int :=
  (t.userId, t.type, t.amount)

/-- Concrete user document builder for witnesses and counterexamples. -/
def mkUser (uname : String) (pts csh : Int) (code friendCode : String) : UserDoc :=
  { username := uname, points := pts, cash := csh, referralCode := code,
    referralCodeFriend := friendCode, approved := true, referrals := [] }

/-- The empty store, base of concrete witness states. -/
def emptyDB : DB :=
  { users := [], txns := [], requests := [], investments := [],
    ultraBets := [], diceRounds := [], diceBets := [] }

/-- Decidability of per-document non-negativity (for concrete witnesses). -/
instance : DecidablePred nonNegUser :=
  fun d => decidable_of_iff (0 ≤ d.points ∧ 0 ≤ d.cash) Iff.rfl

/-- Decidability of collection-wide non-negativity. -/
instance (us : Users) : Decidable (nonNegUsers us) :=
  decidable_of_iff (∀ p ∈ us, nonNegUser p.2) Iff.rfl

/-- Decidability of payload well-formedness. -/
instance : DecidablePred payloadWF := fun pl =>
  match pl with
  | ReqPayload.pointTransfer _ _ a => decidable_of_iff ((0 : Int) ≤ a) Iff.rfl
  | ReqPayload.vipUpgrade _ _ => decidable_of_iff True Iff.rfl
  | ReqPayload.withdrawal a => decidable_of_iff ((0 : Int) ≤ a) Iff.rfl
  | ReqPayload.loan a => decidable_of_iff ((0 : Int) ≤ a) Iff.rfl

/-- Decidability of the store invariant. -/
instance (db : DB) : Decidable (WF db) :=
  decidable_of_iff
    ((db.users.map Prod.fst).Nodup ∧
      nonNegUsers db.users ∧
      (∀ p ∈ db.requests, payloadWF p.2.payload) ∧
      (∀ p ∈ db.investments, 0 ≤ p.2.amount ∧ 0 ≤ p.2.interestRate) ∧
      (∀ p ∈ db.ultraBets, 0 ≤ p.2.amount) ∧
      (∀ p ∈ db.diceBets, 0 ≤ p.2.amount)) Iff.rfl

/-- Decidability of the operation guard. -/
instance (op : Op) : Decidable (opGuard op) :=
  match op with
  | Op.adminBalance _ _ amount => decidable_of_iff ((0 : Int) ≤ amount) Iff.rfl
  | Op.transfer _ _ _ _ => decidable_of_iff True Iff.rfl
  | Op.transferRequestProcess _ _ => decidable_of_iff True Iff.rfl
  | Op.requestProcess _ _ _ => decidable_of_iff True Iff.rfl
  | Op.upgradeProcess _ _ => decidable_of_iff True Iff.rfl
  | Op.investCreate _ _ => decidable_of_iff True Iff.rfl
  | Op.investApprove _ _ => decidable_of_iff True Iff.rfl
  | Op.investDecline _ => decidable_of_iff True Iff.rfl
  | Op.investComplete _ => decidable_of_iff True Iff.rfl
  | Op.ultraPlace _ _ _ => decidable_of_iff True Iff.rfl
  | Op.ultraCancel _ => decidable_of_iff True Iff.rfl
  | Op.ultraWin _ _ => decidable_of_iff True Iff.rfl
  | Op.ultraLose _ => decidable_of_iff True Iff.rfl
  | Op.dicePlace _ _ _ _ => decidable_of_iff True Iff.rfl
  | Op.diceResolve _ _ => decidable_of_iff True Iff.rfl
  | Op.userApprove _ => decidable_of_iff True Iff.rfl

/-- Concrete pending dice bet builder for witnesses and counterexamples. -/
def mkBet (uid uname rid : String) (num : Nat) (amt : Int) : DiceBet :=
  { userId := uid, username := uname, roundId := rid, chosenNumber := num,
    amount := amt, status := DiceStatus.pending, payout := 0,
    payoutType := Option.none, resultColor := Option.none }

/-- A successful lookup returns a member of the list. -/
theorem lookupDoc_mem {α : Type} {l : List (String × α)} {i : String} {d : α}
    (h : lookupDoc l i = some d) : (i, d) ∈ l := by
  induction l with
  | nil => simp [lookupDoc] at h
  | cons p rest ih =>
    rcases p with ⟨j, e⟩
    by_cases hij : j = i
    · subst hij
      simp [lookupDoc] at h
      simp [h]
    · simp [lookupDoc, hij] at h
      exact List.mem_cons_of_mem _ (ih h)

/-- A successful `getUser` returns a member of the collection. -/
theorem getUser_mem {us : Users} {i : String} {d : UserDoc}
    (h : getUser us i = some d) : (i, d) ∈ us := by
  induction us with
  | nil => simp [getUser] at h
  | cons p rest ih =>
    rcases p with ⟨j, e⟩
    by_cases hij : j = i
    · subst hij
      simp [getUser] at h
      simp [h]
    · simp [getUser, hij] at h
      exact List.mem_cons_of_mem _ (ih h)

/-- `updateUser` does not change the id column. -/
theorem updateUser_keys (us : Users) (uid : String) (f : UserDoc → UserDoc) :
    (updateUser us uid f).map Prod.fst = us.map Prod.fst := by
  induction us with
  | nil => rfl
  | cons p rest ih =>
    by_cases h : p.1 = uid <;> simp [updateUser, h] at ih ⊢ <;> exact ih

/-- Every entry of `updateUser us uid f` is an entry of `us` or the
`f`-image of an entry of `us` with key `uid`. -/
theorem updateUser_mem {us : Users} {uid : String} {f : UserDoc → UserDoc}
    {p : String × UserDoc} (h : p ∈ updateUser us uid f) :
    p ∈ us ∨ ∃ q, q ∈ us ∧ q.1 = uid ∧ p = (q.1, f q.2) := by
  rcases List.mem_map.1 h with ⟨q, hq, rfl⟩
  by_cases hk : q.1 = uid
  · exact Or.inr ⟨q, hq, hk, by simp [hk]⟩
  · exact Or.inl (by simpa [hk] using hq)

/-- Non-negativity is preserved by an update whose per-document effect
preserves it. -/
theorem nonNegUsers_updateUser {us : Users} {uid : String} {f : UserDoc → UserDoc}
    (hus : nonNegUsers us) (hf : ∀ d, nonNegUser d → nonNegUser (f d)) :
    nonNegUsers (updateUser us uid f) := by
  intro p hp
  rcases updateUser_mem hp with hmem | ⟨q, hq, _, rfl⟩
  · exact hus p hmem
  · exact hf q.2 (hus q hq)

/-- With unique ids, an entry with key `uid` carries the document that
`getUser` returns. -/
theorem getUser_eq_of_mem {us : Users} {uid : String} {d u : UserDoc}
    (hnd : (us.map Prod.fst).Nodup) (hget : getUser us uid = some u)
    (hmem : (uid, d) ∈ us) : d = u := by
  induction us with
  | nil => simp at hmem
  | cons p rest ih =>
    rcases p with ⟨j, e⟩
    simp only [List.map_cons, List.nodup_cons] at hnd
    rcases List.mem_cons.1 hmem with heq | htail
    · cases heq
      simp [getUser] at hget
      exact hget
    · by_cases hij : j = uid
      · subst hij
        exact absurd (List.mem_map.2 ⟨(j, d), htail, rfl⟩) hnd.1
      · simp [getUser, hij] at hget
        exact ih hnd.2 hget htail

/-- Non-negativity is preserved when only the stored document under `uid`
is rewritten and its image stays non-negative (unique ids). -/
theorem nonNegUsers_updateUser_at {us : Users} {uid : String} {u : UserDoc}
    {f : UserDoc → UserDoc} (hnd : (us.map Prod.fst).Nodup)
    (hget : getUser us uid = some u) (hus : nonNegUsers us)
    (hf : nonNegUser (f u)) : nonNegUsers (updateUser us uid f) := by
  intro p hp
  rcases updateUser_mem hp with hmem | ⟨q, hq, hk, rfl⟩
  · exact hus p hmem
  · have hmem2 : (uid, q.2) ∈ us := by
      have hq2 : q = (uid, q.2) := by
        cases q
        simp only at hk
        simp [hk]
      rwa [hq2] at hq
    have hqu : q.2 = u := getUser_eq_of_mem hnd hget hmem2
    simpa [hqu] using hf

/-- `updateDocById` keeps any per-entry property preserved by `f`. -/
theorem updateDocById_forall {α : Type} {l : List (String × α)} {did : String}
    {f : α → α} {P : String × α → Prop}
    (hl : ∀ p ∈ l, P p) (hf : ∀ i a, P (i, a) → P (i, f a)) :
    ∀ p ∈ updateDocById l did f, P p := by
  intro p hp
  rcases List.mem_map.1 hp with ⟨q, hq, rfl⟩
  by_cases hk : q.1 = did
  · simpa [hk] using hf q.1 q.2 (by simpa using hl q hq)
  · simpa [hk] using hl q hq

/-- A successful `find?`-based referral-code query returns a member. -/
theorem findByReferralCode_mem {us : Users} {code : String} {p : String × UserDoc}
    (h : findByReferralCode us code = some p) : p ∈ us :=
  List.mem_of_find?_eq_some h

/-- A successful username query returns a member. -/
theorem findByUsername_mem {us : Users} {uname : String} {p : String × UserDoc}
    (h : findByUsername us uname = some p) : p ∈ us :=
  List.mem_of_find?_eq_some h

/-- A successfully resolved recipient is a member of the collection. -/
theorem resolveRecipient_mem {us : Users} {ident : String} {p : String × UserDoc}
    (h : resolveRecipient us ident = some p) : p ∈ us := by
  unfold resolveRecipient at h
  by_cases hs : isReferralIdent ident = true
  · rw [if_pos hs] at h; exact findByReferralCode_mem h
  · rw [if_neg hs] at h; exact findByUsername_mem h


/-- Setting `points` to a non-negative value keeps a document non-negative. -/
theorem nonNegUser_setPoints {d : UserDoc} (v : Int) (hv : 0 ≤ v)
    (hd : nonNegUser d) : nonNegUser { d with points := v } :=
  ⟨hv, hd.2⟩

/-- Setting `cash` to a non-negative value keeps a document non-negative. -/
theorem nonNegUser_setCash {d : UserDoc} (v : Int) (hv : 0 ≤ v)
    (hd : nonNegUser d) : nonNegUser { d with cash := v } :=
  ⟨hd.1, hv⟩

/-- Adding a non-negative amount to `points` keeps a document non-negative. -/
theorem nonNegUser_addPoints {d : UserDoc} {w : Int} (hw : 0 ≤ w)
    (hd : nonNegUser d) : nonNegUser { d with points := d.points + w } :=
  ⟨add_nonneg hd.1 hw, hd.2⟩

/-- Adding a non-negative amount to `cash` keeps a document non-negative. -/
theorem nonNegUser_addCash {d : UserDoc} {w : Int} (hw : 0 ≤ w)
    (hd : nonNegUser d) : nonNegUser { d with cash := d.cash + w } :=
  ⟨hd.1, add_nonneg hd.2 hw⟩

/-- `transferPoints` preserves the store invariant. -/
theorem transferPoints_WF {db db' : DB} {uid ident : String} {amt : Int}
    {direct : Bool} (hwf : WF db)
    (h : transferPoints db uid ident amt direct = some db') : WF db' := by
  obtain ⟨hnd, hnn, hreq, hinv, hub, hdbets⟩ := hwf
  unfold transferPoints at h
  by_cases hu : uid = ""
  · simp [hu] at h
  by_cases hi : ident = ""
  · simp [hu, hi] at h
  by_cases ha : amt ≤ 0
  · simp [hu, hi, ha] at h
  simp only [hu, hi, ha, if_false] at h
  cases hg : getUser db.users uid with
  | none => rw [hg] at h; cases h
  | some userData =>
    rw [hg] at h
    by_cases hp : userData.points < amt
    · simp [hp] at h
    simp only [hp, if_false] at h
    cases hr : resolveRecipient db.users ident with
    | none => rw [hr] at h; cases h
    | some pr =>
      rw [hr] at h
      obtain ⟨rid, rdata⟩ := pr
      by_cases hself : rid = uid
      · simp [hself] at h
      simp only [hself, if_false] at h
      have hsender : nonNegUser userData := hnn _ (getUser_mem hg)
      have hrecip : nonNegUser rdata := hnn _ (resolveRecipient_mem hr)
      cases hd : direct
      · rw [hd, if_neg Bool.false_ne_true] at h
        injection h with h
        subst h
        refine ⟨hnd, hnn, ?_, hinv, hub, hdbets⟩
        dsimp only
        intro p hp2
        rcases List.mem_append.1 hp2 with hl | hr2
        · exact hreq p hl
        · simp at hr2
          subst hr2
          show (0 : Int) ≤ amt
          omega
      · rw [hd, if_pos rfl] at h
        injection h with h
        subst h
        refine ⟨?_, ?_, hreq, hinv, hub, hdbets⟩
        · simp only [updateUser_keys]
          exact hnd
        · dsimp only
          apply nonNegUsers_updateUser
          · apply nonNegUsers_updateUser hnn
            intro d hdn
            exact nonNegUser_setPoints _ (by omega) hdn
          · intro d hdn
            exact nonNegUser_setPoints _ (add_nonneg hrecip.1 (by omega)) hdn

/-- `handleTransferRequest` preserves the store invariant. -/
theorem handleTransferRequest_WF {db db' : DB} {rid : String} {approve : Bool}
    (hwf : WF db) (h : handleTransferRequest db rid approve = some db') : WF db' := by
  obtain ⟨hnd, hnn, hreq, hinv, hub, hdbets⟩ := hwf
  unfold handleTransferRequest at h
  cases hq : lookupDoc db.requests rid with
  | none => rw [hq] at h; cases h
  | some request =>
    rw [hq] at h
    have hreqwf := hreq _ (lookupDoc_mem hq)
    cases hpay : request.payload with
    | vipUpgrade a b => simp [hpay] at h
    | withdrawal a => simp [hpay] at h
    | loan a => simp [hpay] at h
    | pointTransfer recipientId recipientUsername amount =>
      simp only [hpay] at h
      rw [hpay] at hreqwf
      have hamt : (0 : Int) ≤ amount := hreqwf
      cases hg : getUser db.users request.userId with
      | none => simp [hg] at h
      | some senderData =>
        simp only [hg] at h
        have hsender : nonNegUser senderData := hnn _ (getUser_mem hg)
        by_cases hp : senderData.points < amount
        · rw [if_pos hp] at h
          injection h with h
          subst h
          refine ⟨hnd, hnn, ?_, hinv, hub, hdbets⟩
          dsimp only
          exact updateDocById_forall hreq (fun i a ha => ha)
        · rw [if_neg hp] at h
          cases happ : approve
          · rw [happ, if_neg Bool.false_ne_true] at h
            injection h with h
            subst h
            refine ⟨hnd, hnn, ?_, hinv, hub, hdbets⟩
            dsimp only
            exact updateDocById_forall hreq (fun i a ha => ha)
          · rw [happ, if_pos rfl] at h
            cases hg2 : getUser db.users recipientId with
            | none => simp [hg2] at h
            | some recipientData =>
              simp only [hg2] at h
              injection h with h
              subst h
              have hrecip : nonNegUser recipientData := hnn _ (getUser_mem hg2)
              refine ⟨?_, ?_, ?_, hinv, hub, hdbets⟩
              · simp only [updateUser_keys]
                exact hnd
              · dsimp only
                apply nonNegUsers_updateUser
                · apply nonNegUsers_updateUser hnn
                  intro d hdn
                  exact nonNegUser_setPoints _ (by omega) hdn
                · intro d hdn
                  exact nonNegUser_setPoints _ (add_nonneg hrecip.1 hamt) hdn
              · dsimp only
                exact updateDocById_forall hreq (fun i a ha => ha)

/-- `processRequest` preserves the store invariant. -/
theorem processRequest_WF {db db' : DB} {rid : String} {approve : Bool} {fee : Int}
    (hwf : WF db) (h : processRequest db rid approve fee = some db') : WF db' := by
  obtain ⟨hnd, hnn, hreq, hinv, hub, hdbets⟩ := hwf
  unfold processRequest at h
  cases hq : lookupDoc db.requests rid with
  | none => rw [hq] at h; cases h
  | some request =>
    rw [hq] at h
    have hreqwf := hreq _ (lookupDoc_mem hq)
    cases hg : getUser db.users request.userId with
    | none => simp [hg] at h
    | some userData =>
      simp only [hg] at h
      have husr : nonNegUser userData := hnn _ (getUser_mem hg)
      cases happ : approve
      · rw [happ, if_neg Bool.false_ne_true] at h
        cases hpay : request.payload with
        | withdrawal amount =>
          simp only [hpay] at h
          injection h with h
          subst h
          rw [hpay] at hreqwf
          refine ⟨?_, ?_, ?_, hinv, hub, hdbets⟩
          · simp only [updateUser_keys]
            exact hnd
          · dsimp only
            apply nonNegUsers_updateUser hnn
            intro d hdn
            exact nonNegUser_addCash hreqwf hdn
          · dsimp only
            exact updateDocById_forall hreq (fun i a ha => ha)
        | pointTransfer a b c =>
          simp only [hpay] at h
          injection h with h
          subst h
          refine ⟨hnd, hnn, ?_, hinv, hub, hdbets⟩
          dsimp only
          exact updateDocById_forall hreq (fun i a ha => ha)
        | vipUpgrade a b =>
          simp only [hpay] at h
          injection h with h
          subst h
          refine ⟨hnd, hnn, ?_, hinv, hub, hdbets⟩
          dsimp only
          exact updateDocById_forall hreq (fun i a ha => ha)
        | loan a =>
          simp only [hpay] at h
          injection h with h
          subst h
          refine ⟨hnd, hnn, ?_, hinv, hub, hdbets⟩
          dsimp only
          exact updateDocById_forall hreq (fun i a ha => ha)
      · rw [happ, if_pos rfl] at h
        cases hpay : request.payload with
        | withdrawal amount =>
          simp only [hpay] at h
          injection h with h
          subst h
          refine ⟨hnd, hnn, ?_, hinv, hub, hdbets⟩
          dsimp only
          exact updateDocById_forall hreq (fun i a ha => ha)
        | loan amount =>
          simp only [hpay] at h
          injection h with h
          subst h
          rw [hpay] at hreqwf
          refine ⟨?_, ?_, ?_, hinv, hub, hdbets⟩
          · simp only [updateUser_keys]
            exact hnd
          · dsimp only
            apply nonNegUsers_updateUser hnn
            intro d hdn
            exact nonNegUser_addPoints hreqwf hdn
          · dsimp only
            exact updateDocById_forall hreq (fun i a ha => ha)
        | pointTransfer a b c =>
          simp only [hpay] at h
          injection h with h
          subst h
          exact ⟨hnd, hnn, hreq, hinv, hub, hdbets⟩
        | vipUpgrade a b =>
          simp only [hpay] at h
          injection h with h
          subst h
          exact ⟨hnd, hnn, hreq, hinv, hub, hdbets⟩

/-- `processUpgradeRequest` preserves the store invariant. -/
theorem processUpgradeRequest_WF {db db' : DB} {rid : String} {approve : Bool}
    (hwf : WF db) (h : processUpgradeRequest db rid approve = some db') : WF db' := by
  obtain ⟨hnd, hnn, hreq, hinv, hub, hdbets⟩ := hwf
  unfold processUpgradeRequest at h
  cases hq : lookupDoc db.requests rid with
  | none => rw [hq] at h; cases h
  | some request =>
    rw [hq] at h
    cases hpay : request.payload with
    | pointTransfer a b c => simp [hpay] at h
    | withdrawal a => simp [hpay] at h
    | loan a => simp [hpay] at h
    | vipUpgrade a b =>
      simp only [hpay] at h
      injection h with h
      subst h
      refine ⟨hnd, hnn, ?_, hinv, hub, hdbets⟩
      dsimp only
      exact updateDocById_forall hreq (fun i a ha => ha)

/-- `updateUserBalance` preserves the store invariant when the admin
enters a non-negative amount (there is no validation in the code, so a
negative entry genuinely violates the invariant; see the C2 counterexample). -/
theorem updateUserBalance_WF {db db' : DB} {uid : String} {fld : BalanceField}
    {amount : Int} (hwf : WF db) (hamt : 0 ≤ amount)
    (h : updateUserBalance db uid fld amount = some db') : WF db' := by
  obtain ⟨hnd, hnn, hreq, hinv, hub, hdbets⟩ := hwf
  unfold updateUserBalance at h
  cases hg : getUser db.users uid with
  | none => rw [hg] at h; cases h
  | some userData =>
    rw [hg] at h
    injection h with h
    subst h
    have husr : nonNegUser userData := hnn _ (getUser_mem hg)
    refine ⟨?_, ?_, hreq, hinv, hub, hdbets⟩
    · simp only [updateUser_keys]
      exact hnd
    · dsimp only
      cases fld with
      | points =>
        apply nonNegUsers_updateUser_at hnd hg hnn
        refine ⟨?_, husr.2⟩
        show (0 : Int) ≤ userData.points + (amount - userData.points)
        omega
      | cash =>
        apply nonNegUsers_updateUser_at hnd hg hnn
        refine ⟨husr.1, ?_⟩
        show (0 : Int) ≤ userData.cash + (amount - userData.cash)
        omega

/-- `createInvestment` preserves the store invariant. -/
theorem createInvestment_WF {db db' : DB} {uid : String} {amt : Int}
    (hwf : WF db) (h : createInvestment db uid amt = some db') : WF db' := by
  obtain ⟨hnd, hnn, hreq, hinv, hub, hdbets⟩ := hwf
  unfold createInvestment at h
  cases hg : getUser db.users uid with
  | none => rw [hg] at h; cases h
  | some userData =>
    rw [hg] at h
    by_cases h1 : amt ≤ 0
    · simp [h1] at h
    by_cases h2 : userData.points < amt
    · simp [h1, h2] at h
    simp only [h1, h2, if_false] at h
    injection h with h
    subst h
    refine ⟨?_, ?_, hreq, ?_, hub, hdbets⟩
    · simp only [updateUser_keys]
      exact hnd
    · dsimp only
      apply nonNegUsers_updateUser hnn
      intro d hdn
      exact nonNegUser_setPoints _ (by omega) hdn
    · dsimp only
      intro p hp2
      rcases List.mem_append.1 hp2 with hl | hr2
      · exact hinv p hl
      · simp at hr2
        subst hr2
        refine ⟨?_, ?_⟩ <;> dsimp only
        · omega
        · exact le_refl 0

/-- `submitApproval` preserves the store invariant. -/
theorem submitApproval_WF {db db' : DB} {iid : String} {rate : ℚ}
    (hwf : WF db) (h : submitApproval db iid rate = some db') : WF db' := by
  obtain ⟨hnd, hnn, hreq, hinv, hub, hdbets⟩ := hwf
  unfold submitApproval at h
  by_cases hr : rate ≤ 0
  · simp [hr] at h
  rw [if_neg hr] at h
  cases hq : lookupDoc db.investments iid with
  | none => rw [hq] at h; cases h
  | some inv =>
    rw [hq] at h
    injection h with h
    subst h
    refine ⟨hnd, hnn, hreq, ?_, hub, hdbets⟩
    dsimp only
    apply updateDocById_forall hinv
    intro i a ha
    exact ⟨ha.1, le_of_lt (lt_of_not_le hr)⟩

/-- `handleDecline` preserves the store invariant. -/
theorem handleDecline_WF {db db' : DB} {iid : String}
    (hwf : WF db) (h : handleDecline db iid = some db') : WF db' := by
  obtain ⟨hnd, hnn, hreq, hinv, hub, hdbets⟩ := hwf
  unfold handleDecline at h
  cases hq : lookupDoc db.investments iid with
  | none => rw [hq] at h; cases h
  | some inv =>
    rw [hq] at h
    have hinvwf := hinv _ (lookupDoc_mem hq)
    cases hg : getUser db.users inv.userId with
    | none => simp [hg] at h
    | some userData =>
      simp only [hg] at h
      injection h with h
      subst h
      have husr : nonNegUser userData := hnn _ (getUser_mem hg)
      refine ⟨?_, ?_, hreq, ?_, hub, hdbets⟩
      · simp only [updateUser_keys]
        exact hnd
      · dsimp only
        apply nonNegUsers_updateUser hnn
        intro d hdn
        exact nonNegUser_setPoints _ (add_nonneg husr.1 hinvwf.1) hdn
      · dsimp only
        exact updateDocById_forall hinv (fun i a ha => ha)

/-- The investment payout is non-negative for non-negative principal and
rate. -/
theorem investmentPayout_nonneg {amount : Int} {rate : ℚ}
    (ha : 0 ≤ amount) (hr : 0 ≤ rate) : 0 ≤ investmentPayout amount rate := by
  unfold investmentPayout
  apply Int.floor_nonneg.mpr
  have h1 : (0 : ℚ) ≤ (amount : ℚ) := by exact_mod_cast ha
  have h2 : (0 : ℚ) ≤ 1 + rate / 100 :=
    add_nonneg zero_le_one (div_nonneg hr (by norm_num))
  exact mul_nonneg h1 h2

/-- `handleComplete` preserves the store invariant. -/
theorem handleComplete_WF {db db' : DB} {iid : String}
    (hwf : WF db) (h : handleComplete db iid = some db') : WF db' := by
  obtain ⟨hnd, hnn, hreq, hinv, hub, hdbets⟩ := hwf
  unfold handleComplete at h
  cases hq : lookupDoc db.investments iid with
  | none => rw [hq] at h; cases h
  | some inv =>
    rw [hq] at h
    have hinvwf := hinv _ (lookupDoc_mem hq)
    cases hg : getUser db.users inv.userId with
    | none => simp [hg] at h
    | some userData =>
      simp only [hg] at h
      injection h with h
      subst h
      have husr : nonNegUser userData := hnn _ (getUser_mem hg)
      have hpay : 0 ≤ investmentPayout inv.amount inv.interestRate :=
        investmentPayout_nonneg hinvwf.1 hinvwf.2
      refine ⟨?_, ?_, hreq, ?_, hub, hdbets⟩
      · simp only [updateUser_keys]
        exact hnd
      · dsimp only
        apply nonNegUsers_updateUser hnn
        intro d hdn
        exact nonNegUser_setPoints _ (add_nonneg husr.1 hpay) hdn
      · dsimp only
        exact updateDocById_forall hinv (fun i a ha => ha)

/-- `placeUltraBet` preserves the store invariant. -/
theorem placeUltraBet_WF {db db' : DB} {uid : String} {amt : Int} {note : String}
    (hwf : WF db) (h : placeUltraBet db uid amt note = some db') : WF db' := by
  obtain ⟨hnd, hnn, hreq, hinv, hub, hdbets⟩ := hwf
  unfold placeUltraBet at h
  cases hg : getUser db.users uid with
  | none => rw [hg] at h; cases h
  | some userData =>
    rw [hg] at h
    by_cases h1 : amt ≤ 0
    · simp [h1] at h
    by_cases h2 : userData.points < amt
    · simp [h1, h2] at h
    by_cases h3 : note = ""
    · simp [h1, h2, h3] at h
    by_cases h4 : 100 < note.length
    · simp [h1, h2, h3, h4] at h
    simp only [h1, h2, h3, h4, if_false] at h
    injection h with h
    subst h
    refine ⟨?_, ?_, hreq, hinv, ?_, hdbets⟩
    · simp only [updateUser_keys]
      exact hnd
    · dsimp only
      apply nonNegUsers_updateUser hnn
      intro d hdn
      exact nonNegUser_setPoints _ (by omega) hdn
    · dsimp only
      intro p hp2
      rcases List.mem_append.1 hp2 with hl | hr2
      · exact hub p hl
      · simp at hr2
        subst hr2
        show (0 : Int) ≤ amt
        omega

/-- `cancelBet` preserves the store invariant. -/
theorem cancelBet_WF {db db' : DB} {bid : String}
    (hwf : WF db) (h : cancelBet db bid = some db') : WF db' := by
  obtain ⟨hnd, hnn, hreq, hinv, hub, hdbets⟩ := hwf
  unfold cancelBet at h
  cases hq : lookupDoc db.ultraBets bid with
  | none => rw [hq] at h; cases h
  | some bet =>
    rw [hq] at h
    have hbet := hub _ (lookupDoc_mem hq)
    cases hg : getUser db.users bet.userId with
    | none => simp [hg] at h
    | some userData =>
      simp only [hg] at h
      injection h with h
      subst h
      refine ⟨?_, ?_, hreq, hinv, ?_, hdbets⟩
      · simp only [updateUser_keys]
        exact hnd
      · dsimp only
        apply nonNegUsers_updateUser hnn
        intro d hdn
        exact nonNegUser_addPoints hbet hdn
      · dsimp only
        exact updateDocById_forall hub (fun i a ha => ha)

/-- `processBet` preserves the store invariant when the win amount is
non-negative (the public entry `handleWinSubmit` validates positivity). -/
theorem processBet_WF {db db' : DB} {bid : String} {isWin : Bool} {w : Option Int}
    (hwf : WF db) (hw : 0 ≤ w.getD 0)
    (h : processBet db bid isWin w = some db') : WF db' := by
  obtain ⟨hnd, hnn, hreq, hinv, hub, hdbets⟩ := hwf
  unfold processBet at h
  cases hq : lookupDoc db.ultraBets bid with
  | none => rw [hq] at h; cases h
  | some bet =>
    simp only [hq] at h
    by_cases hc : isWin = true ∧ w.getD 0 ≠ 0
    · rw [if_pos hc] at h
      cases hg : getUser db.users bet.userId with
      | none => simp [hg] at h
      | some userData =>
        simp only [hg] at h
        injection h with h
        subst h
        refine ⟨?_, ?_, hreq, hinv, ?_, hdbets⟩
        · simp only [updateUser_keys]
          exact hnd
        · dsimp only
          apply nonNegUsers_updateUser hnn
          intro d hdn
          exact nonNegUser_addPoints hw hdn
        · dsimp only
          exact updateDocById_forall hub (fun i a ha => ha)
    · rw [if_neg hc] at h
      injection h with h
      subst h
      refine ⟨hnd, hnn, hreq, hinv, ?_, hdbets⟩
      dsimp only
      exact updateDocById_forall hub (fun i a ha => ha)

/-- `handleWinSubmit` preserves the store invariant. -/
theorem handleWinSubmit_WF {db db' : DB} {bid : String} {w : Int}
    (hwf : WF db) (h : handleWinSubmit db bid w = some db') : WF db' := by
  unfold handleWinSubmit at h
  by_cases hw : w ≤ 0
  · simp [hw] at h
  rw [if_neg hw] at h
  exact processBet_WF hwf (by simp; omega) h

/-- `placeDiceBet` preserves the store invariant. -/
theorem placeDiceBet_WF {db db' : DB} {uid : String} {num : Nat} {amt : Int}
    {rid : String} (hwf : WF db)
    (h : placeDiceBet db uid num amt rid = some db') : WF db' := by
  obtain ⟨hnd, hnn, hreq, hinv, hub, hdbets⟩ := hwf
  unfold placeDiceBet at h
  cases hq : lookupDoc db.diceRounds rid with
  | none => rw [hq] at h; cases h
  | some r =>
    rw [hq] at h
    by_cases hs : r.status ≠ RoundStatus.openR
    · simp [hs] at h
    simp only [hs, if_false] at h
    cases hg : getUser db.users uid with
    | none => simp [hg] at h
    | some userData =>
      simp only [hg] at h
      by_cases h1 : amt ≤ 0
      · simp [h1] at h
      by_cases h2 : userData.points < amt
      · simp [h1, h2] at h
      simp only [h1, h2, if_false] at h
      injection h with h
      subst h
      refine ⟨?_, ?_, hreq, hinv, hub, ?_⟩
      · simp only [updateUser_keys]
        exact hnd
      · dsimp only
        apply nonNegUsers_updateUser hnn
        intro d hdn
        exact nonNegUser_setPoints _ (by omega) hdn
      · dsimp only
        intro p hp2
        rcases List.mem_append.1 hp2 with hl | hr2
        · exact hdbets p hl
        · simp at hr2
          subst hr2
          show (0 : Int) ≤ amt
          omega

/-- `creditBet` keeps every balance non-negative when the bet amount is
non-negative: the only write sets the winner's points to
`bet.amount + payout` with `payout > 0`. -/
theorem creditBet_nonNeg {nc : NumberColors} {us : Users} {b : DiceBet}
    (hb : 0 ≤ b.amount) (hnn : nonNegUsers us) : nonNegUsers (creditBet nc us b) := by
  unfold creditBet
  by_cases hc : colorAt nc b.chosenNumber ≠ DiceColor.none ∧ (dicePayout nc b).1 > 0
  · rw [if_pos hc]
    by_cases hf : (dicePayout nc b).2 = some PayoutType.fbt
    · rw [if_pos hf]
      apply nonNegUsers_updateUser hnn
      intro d hdn
      exact nonNegUser_setPoints _ (by have := hc.2; omega) hdn
    · rw [if_neg hf]
      exact hnn
  · rw [if_neg hc]
    exact hnn

/-- `creditBet` does not change the id column. -/
theorem creditBet_keys (nc : NumberColors) (us : Users) (b : DiceBet) :
    (creditBet nc us b).map Prod.fst = us.map Prod.fst := by
  unfold creditBet
  by_cases hc : colorAt nc b.chosenNumber ≠ DiceColor.none ∧ (dicePayout nc b).1 > 0
  · rw [if_pos hc]
    by_cases hf : (dicePayout nc b).2 = some PayoutType.fbt
    · rw [if_pos hf]
      exact updateUser_keys us b.userId _
    · rw [if_neg hf]
  · rw [if_neg hc]

/-- Folding `creditBet` over any bet list keeps balances non-negative. -/
theorem foldl_creditBet_nonNeg (nc : NumberColors) :
    ∀ (bets : List (String × DiceBet)) (us : Users),
      (∀ p ∈ bets, 0 ≤ p.2.amount) → nonNegUsers us →
      nonNegUsers (bets.foldl (fun us p => creditBet nc us p.2) us) := by
  intro bets
  induction bets with
  | nil => intro us _ hnn; exact hnn
  | cons p rest ih =>
    intro us hb hnn
    simp only [List.foldl_cons]
    exact ih _ (fun q hq => hb q (List.mem_cons_of_mem _ hq))
      (creditBet_nonNeg (hb p (List.mem_cons_self _ _)) hnn)

/-- Folding `creditBet` over any bet list keeps the id column. -/
theorem foldl_creditBet_keys (nc : NumberColors) :
    ∀ (bets : List (String × DiceBet)) (us : Users),
      (bets.foldl (fun us p => creditBet nc us p.2) us).map Prod.fst = us.map Prod.fst := by
  intro bets
  induction bets with
  | nil => intro us; rfl
  | cons p rest ih =>
    intro us
    simp only [List.foldl_cons]
    rw [ih, creditBet_keys]

/-- `closeRoundAndResolve` preserves the store invariant. -/
theorem closeRoundAndResolve_WF {db : DB} {rid : String} {nc : NumberColors}
    (hwf : WF db) : WF (closeRoundAndResolve rid nc db) := by
  obtain ⟨hnd, hnn, hreq, hinv, hub, hdbets⟩ := hwf
  unfold closeRoundAndResolve
  cases hq : lookupDoc db.diceRounds rid with
  | none => exact ⟨hnd, hnn, hreq, hinv, hub, hdbets⟩
  | some r =>
    by_cases hc : r.status = RoundStatus.openR ∧ hasWinner nc = true
    · simp only [if_pos hc]
      unfold resolveBetsCommit closeRoundCommit
      refine ⟨?_, ?_, hreq, hinv, hub, ?_⟩
      · dsimp only
        rw [foldl_creditBet_keys]
        exact hnd
      · dsimp only
        apply foldl_creditBet_nonNeg
        · intro p hp
          exact hdbets p (List.mem_of_mem_filter hp)
        · exact hnn
      · dsimp only
        intro p hp
        rcases List.mem_map.1 hp with ⟨q, hq2, rfl⟩
        by_cases hr2 : q.2.roundId = rid
        · rw [if_pos hr2]
          show 0 ≤ (resolveBet nc q.2).amount
          exact hdbets q hq2
        · rw [if_neg hr2]
          exact hdbets q hq2
    · simp only [if_neg hc]
      exact ⟨hnd, hnn, hreq, hinv, hub, hdbets⟩

/-- A credited referrer document stays non-negative for a non-negative
bonus. -/
theorem nonNegUser_creditReferrer {uid : String} {amt : Int} {fld : BalanceField}
    {d : UserDoc} (hamt : 0 ≤ amt) (hd : nonNegUser d) :
    nonNegUser (creditReferrer uid amt fld d) := by
  unfold creditReferrer
  refine ⟨?_, ?_⟩ <;> dsimp only
  · by_cases hf : fld = BalanceField.points
    · rw [if_pos hf]
      exact add_nonneg hd.1 hamt
    · rw [if_neg hf]
      exact hd.1
  · by_cases hf : fld = BalanceField.cash
    · rw [if_pos hf]
      exact add_nonneg hd.2 hamt
    · rw [if_neg hf]
      exact hd.2

/-- The referral walk keeps balances non-negative when every scheduled
bonus is non-negative. -/
theorem walkReferralChain_nonNeg (newUserId : String) :
    ∀ (sched : List (Nat × Int × BalanceField)), (∀ e ∈ sched, 0 ≤ e.2.1) →
    ∀ (code : String) (visited : List String) (us : Users) (ts : List Txn),
      nonNegUsers us →
      nonNegUsers (walkReferralChain newUserId sched code visited us ts).1 := by
  intro sched
  induction sched with
  | nil =>
    intro _ code visited us ts hnn
    exact hnn
  | cons e rest ih =>
    obtain ⟨lvl, amt, fld⟩ := e
    intro hs code visited us ts hnn
    have hamt : (0 : Int) ≤ amt := hs _ (List.mem_cons_self _ _)
    unfold walkReferralChain
    by_cases hc : code = "" ∨ code = "Not set"
    · rw [if_pos hc]
      exact hnn
    rw [if_neg hc]
    cases hf : findByReferralCode us code with
    | none => exact hnn
    | some pr =>
      obtain ⟨rid, rdata⟩ := pr
      by_cases hv : rid ∈ visited
      · simp only [if_pos hv]
        exact hnn
      · simp only [if_neg hv]
        apply ih (fun q hq => hs q (List.mem_cons_of_mem _ hq))
        apply nonNegUsers_updateUser hnn
        intro d hdn
        exact nonNegUser_creditReferrer hamt hdn

/-- The referral walk does not change the id column. -/
theorem walkReferralChain_keys (newUserId : String) :
    ∀ (sched : List (Nat × Int × BalanceField)) (code : String)
      (visited : List String) (us : Users) (ts : List Txn),
      (walkReferralChain newUserId sched code visited us ts).1.map Prod.fst =
        us.map Prod.fst := by
  intro sched
  induction sched with
  | nil => intro code visited us ts; rfl
  | cons e rest ih =>
    obtain ⟨lvl, amt, fld⟩ := e
    intro code visited us ts
    unfold walkReferralChain
    by_cases hc : code = "" ∨ code = "Not set"
    · rw [if_pos hc]
    rw [if_neg hc]
    cases hf : findByReferralCode us code with
    | none => rfl
    | some pr =>
      obtain ⟨rid, rdata⟩ := pr
      by_cases hv : rid ∈ visited
      · simp only [if_pos hv]
      · simp only [if_neg hv]
        rw [ih, updateUser_keys]

/-- `approveUser` preserves the store invariant. -/
theorem approveUser_WF {db db' : DB} {uid : String}
    (hwf : WF db) (h : approveUser db uid = some db') : WF db' := by
  obtain ⟨hnd, hnn, hreq, hinv, hub, hdbets⟩ := hwf
  unfold approveUser at h
  cases hg : getUser db.users uid with
  | none => rw [hg] at h; cases h
  | some userData =>
    rw [hg] at h
    injection h with h
    subst h
    unfold processReferralBonuses
    refine ⟨?_, ?_, hreq, hinv, hub, hdbets⟩
    · dsimp only
      rw [walkReferralChain_keys, updateUser_keys]
      exact hnd
    · dsimp only
      apply walkReferralChain_nonNeg
      · intro e he
        fin_cases he <;> simp
      · apply nonNegUsers_updateUser hnn
        intro d hdn
        exact ⟨hdn.1, hdn.2⟩

/-- Any guarded operation preserves the store invariant. -/
theorem applyOp_WF (op : Op) (db : DB) (hwf : WF db) (hg : opGuard op) :
    WF (applyOp op db) := by
  cases op with
  | transfer u r a d =>
    show WF ((transferPoints db u r a d).getD db)
    cases h : transferPoints db u r a d with
    | none => exact hwf
    | some db2 => exact transferPoints_WF hwf h
  | transferRequestProcess rid ap =>
    show WF ((handleTransferRequest db rid ap).getD db)
    cases h : handleTransferRequest db rid ap with
    | none => exact hwf
    | some db2 => exact handleTransferRequest_WF hwf h
  | requestProcess rid ap fee =>
    show WF ((processRequest db rid ap fee).getD db)
    cases h : processRequest db rid ap fee with
    | none => exact hwf
    | some db2 => exact processRequest_WF hwf h
  | upgradeProcess rid ap =>
    show WF ((processUpgradeRequest db rid ap).getD db)
    cases h : processUpgradeRequest db rid ap with
    | none => exact hwf
    | some db2 => exact processUpgradeRequest_WF hwf h
  | adminBalance uid fld amt =>
    show WF ((updateUserBalance db uid fld amt).getD db)
    cases h : updateUserBalance db uid fld amt with
    | none => exact hwf
    | some db2 => exact updateUserBalance_WF hwf hg h
  | investCreate uid amt =>
    show WF ((createInvestment db uid amt).getD db)
    cases h : createInvestment db uid amt with
    | none => exact hwf
    | some db2 => exact createInvestment_WF hwf h
  | investApprove iid rate =>
    show WF ((submitApproval db iid rate).getD db)
    cases h : submitApproval db iid rate with
    | none => exact hwf
    | some db2 => exact submitApproval_WF hwf h
  | investDecline iid =>
    show WF ((handleDecline db iid).getD db)
    cases h : handleDecline db iid with
    | none => exact hwf
    | some db2 => exact handleDecline_WF hwf h
  | investComplete iid =>
    show WF ((handleComplete db iid).getD db)
    cases h : handleComplete db iid with
    | none => exact hwf
    | some db2 => exact handleComplete_WF hwf h
  | ultraPlace uid amt note =>
    show WF ((placeUltraBet db uid amt note).getD db)
    cases h : placeUltraBet db uid amt note with
    | none => exact hwf
    | some db2 => exact placeUltraBet_WF hwf h
  | ultraCancel bid =>
    show WF ((cancelBet db bid).getD db)
    cases h : cancelBet db bid with
    | none => exact hwf
    | some db2 => exact cancelBet_WF hwf h
  | ultraWin bid w =>
    show WF ((handleWinSubmit db bid w).getD db)
    cases h : handleWinSubmit db bid w with
    | none => exact hwf
    | some db2 => exact handleWinSubmit_WF hwf h
  | ultraLose bid =>
    show WF ((processBet db bid false Option.none).getD db)
    cases h : processBet db bid false Option.none with
    | none => exact hwf
    | some db2 => exact processBet_WF hwf (by simp) h
  | dicePlace uid n amt rid =>
    show WF ((placeDiceBet db uid n amt rid).getD db)
    cases h : placeDiceBet db uid n amt rid with
    | none => exact hwf
    | some db2 => exact placeDiceBet_WF hwf h
  | diceResolve rid nc =>
    show WF (closeRoundAndResolve rid nc db)
    exact closeRoundAndResolve_WF hwf
  | userApprove uid =>
    show WF ((approveUser db uid).getD db)
    cases h : approveUser db uid with
    | none => exact hwf
    | some db2 => exact approveUser_WF hwf h

/-- Claim C2 (counterexample): the admin balance adjustment
`updateUserBalance` performs no sign validation, so entering `-50` for a
user holding 100 points succeeds and leaves the stored balance at `-50`:
the operation mutates state instead of failing, and the non-negativity
invariant is broken. -/
theorem claim_C2_counterexample :
    WF { emptyDB with users := [("u1", mkUser "alice" 100 0 "FBT1" "Not set")] } ∧
    (runOp (Op.adminBalance "u1" BalanceField.points (-50))
      { emptyDB with users := [("u1", mkUser "alice" 100 0 "FBT1" "Not set")] }).isSome = true ∧
    getUser (applyOp (Op.adminBalance "u1" BalanceField.points (-50))
      { emptyDB with users := [("u1", mkUser "alice" 100 0 "FBT1" "Not set")] }).users "u1" =
      some (mkUser "alice" (-50) 0 "FBT1" "Not set") ∧
    ¬ nonNegUsers (applyOp (Op.adminBalance "u1" BalanceField.points (-50))
      { emptyDB with users := [("u1", mkUser "alice" 100 0 "FBT1" "Not set")] }).users := by
  refine ⟨?_, ?_, ?_, ?_⟩ <;> decide

/-- Claim C2 (amended): under every sequence of operations from the
public contracts, all points and cash balances stay non-negative and any
operation that would drive a balance negative fails before mutating
state, with one exception the counterexample forces: the admin balance
adjustment applies the admin-entered integer without validation, so the
invariant survives it only when that integer is non-negative. -/
theorem claim_C2_amended_nonneg_invariant (ops : List Op) (db : DB)
    (hwf : WF db) (hg : ∀ op ∈ ops, opGuard op) :
    WF (ops.foldl (fun s op => applyOp op s) db) ∧
    nonNegUsers (ops.foldl (fun s op => applyOp op s) db).users := by
  suffices h : WF (ops.foldl (fun s op => applyOp op s) db) from ⟨h, h.2.1⟩
  induction ops generalizing db with
  | nil => exact hwf
  | cons op rest ih =>
    simp only [List.foldl_cons]
    exact ih (applyOp op db) (applyOp_WF op db hwf (hg op (List.mem_cons_self _ _)))
      (fun q hq => hg q (List.mem_cons_of_mem _ hq))

/-- Witness for the amended C2 theorem: a store with one funded account
driven through a direct transfer validation failure, an admin adjustment
to 5 points and an ultra bet placement keeps all balances non-negative. -/
theorem claim_C2_amended_nonneg_invariant_witness :
    WF { emptyDB with users := [("u1", mkUser "alice" 100 20 "FBT1" "Not set")] } ∧
    (WF (([Op.adminBalance "u1" BalanceField.points 5,
           Op.ultraPlace "u1" 3 "note"].foldl (fun s op => applyOp op s))
        { emptyDB with users := [("u1", mkUser "alice" 100 20 "FBT1" "Not set")] }) ∧
      nonNegUsers (([Op.adminBalance "u1" BalanceField.points 5,
           Op.ultraPlace "u1" 3 "note"].foldl (fun s op => applyOp op s))
        { emptyDB with users := [("u1", mkUser "alice" 100 20 "FBT1" "Not set")] }).users) :=
  ⟨by decide,
    claim_C2_amended_nonneg_invariant _ _ (by decide)
      (by intro op hop
          simp only [List.mem_cons, List.not_mem_nil, or_false] at hop
          rcases hop with h | h <;> subst h <;> trivial)⟩

/-- JavaScript `Math.floor(a / 10)` on an integer below 10 is zero. -/
theorem fdiv_ten_of_small {a : Int} (h0 : 0 ≤ a) (h : a < 10) : a.fdiv 10 = 0 := by
  obtain ⟨m, rfl⟩ := Int.eq_ofNat_of_zero_le h0
  rw [show ((10 : Int)) = ((10 : Nat) : Int) from rfl, ← Int.ofNat_fdiv]
  have hm : m < 10 := by exact_mod_cast h
  rw [Nat.div_eq_of_lt hm]
  rfl

/-- Claim C10: a dice bet on a number carrying a winning color whose
amount is below 10 is marked `won` with computed payout 0, and the
settlement batch performs no balance write for it: `floor(amount/10)`
zeroes the payout while the status still becomes `won`
(dice-admin.tsx lines 106-133). -/
theorem claim_C10_small_winning_bet_pays_zero (nc : NumberColors) (b : DiceBet)
    (hcolor : colorAt nc b.chosenNumber ≠ DiceColor.none)
    (h0 : 0 ≤ b.amount) (h10 : b.amount < 10) :
    (resolveBet nc b).status = DiceStatus.won ∧
    (resolveBet nc b).payout = 0 ∧
    ∀ us : Users, creditBet nc us b = us := by
  have hfd : b.amount.fdiv 10 = 0 := fdiv_ten_of_small h0 h10
  have hpay : (dicePayout nc b).1 = 0 := by
    unfold dicePayout
    cases hc : colorAt nc b.chosenNumber <;> simp [hfd]
  refine ⟨?_, ?_, ?_⟩
  · show (if colorAt nc b.chosenNumber = DiceColor.none
      then DiceStatus.lost else DiceStatus.won) = DiceStatus.won
    rw [if_neg hcolor]
  · exact hpay
  · intro us
    unfold creditBet
    have hno : ¬(colorAt nc b.chosenNumber ≠ DiceColor.none ∧ (dicePayout nc b).1 > 0) := by
      rw [hpay]
      simp
    rw [if_neg hno]

/-- Witness for C10 at a concrete input: a 7-point bet on number 2 with
number 2 mapped to white is marked won, pays 0 and moves no balance. -/
theorem claim_C10_small_winning_bet_pays_zero_witness :
    (colorAt [(2, DiceColor.white)] (mkBet "u1" "alice" "r1" 2 7).chosenNumber ≠
        DiceColor.none ∧
      (0 : Int) ≤ (mkBet "u1" "alice" "r1" 2 7).amount ∧
      (mkBet "u1" "alice" "r1" 2 7).amount < 10) ∧
    (resolveBet [(2, DiceColor.white)] (mkBet "u1" "alice" "r1" 2 7)).status =
        DiceStatus.won ∧
    (resolveBet [(2, DiceColor.white)] (mkBet "u1" "alice" "r1" 2 7)).payout = 0 ∧
    creditBet [(2, DiceColor.white)] [("u1", mkUser "alice" 40 0 "FBT1" "Not set")]
        (mkBet "u1" "alice" "r1" 2 7) =
      [("u1", mkUser "alice" 40 0 "FBT1" "Not set")] := by
  have h := claim_C10_small_winning_bet_pays_zero [(2, DiceColor.white)]
    (mkBet "u1" "alice" "r1" 2 7) (by decide) (by decide) (by decide)
  exact ⟨⟨by decide, by decide, by decide⟩, h.1, h.2.1,
    h.2.2 [("u1", mkUser "alice" 40 0 "FBT1" "Not set")]⟩

/-- Claim C1 (code bug, evaluation at the failing input): settling a
round with a 100-point bet on red number 3 by a bettor holding 500
points, and a 100-point bet on white number 2 by a bettor holding 40
cash, marks both bets won with the formula payouts (200 fbt, 50 cash)
recorded on the bet documents — but the red winner's points balance is
SET to `bet.amount + payout = 300` instead of being credited to
`500 + 200 = 700` (the code's own comment says "add FBT winnings", yet
`batch.update` overwrites `points`), and the white winner's cash balance
is left untouched (dice-admin.tsx lines 125-132). -/
theorem claim_C1_dice_payout_not_credited :
    lookupDoc (closeRoundAndResolve "r1"
        [(2, DiceColor.white), (3, DiceColor.red)]
        { emptyDB with
          users := [("u1", mkUser "alice" 500 0 "FBT1" "Not set"),
                    ("w1", mkUser "bob" 0 40 "FBT2" "Not set")],
          diceRounds := [("r1", { status := RoundStatus.openR, numberColors := [] })],
          diceBets := [("b1", mkBet "u1" "alice" "r1" 3 100),
                       ("b2", mkBet "w1" "bob" "r1" 2 100)] }).diceBets "b1" =
      some { mkBet "u1" "alice" "r1" 3 100 with
              status := DiceStatus.won, payout := 200,
              payoutType := some PayoutType.fbt,
              resultColor := some DiceColor.red } ∧
    lookupDoc (closeRoundAndResolve "r1"
        [(2, DiceColor.white), (3, DiceColor.red)]
        { emptyDB with
          users := [("u1", mkUser "alice" 500 0 "FBT1" "Not set"),
                    ("w1", mkUser "bob" 0 40 "FBT2" "Not set")],
          diceRounds := [("r1", { status := RoundStatus.openR, numberColors := [] })],
          diceBets := [("b1", mkBet "u1" "alice" "r1" 3 100),
                       ("b2", mkBet "w1" "bob" "r1" 2 100)] }).diceBets "b2" =
      some { mkBet "w1" "bob" "r1" 2 100 with
              status := DiceStatus.won, payout := 50,
              payoutType := some PayoutType.cash,
              resultColor := some DiceColor.white } ∧
    getUser (closeRoundAndResolve "r1"
        [(2, DiceColor.white), (3, DiceColor.red)]
        { emptyDB with
          users := [("u1", mkUser "alice" 500 0 "FBT1" "Not set"),
                    ("w1", mkUser "bob" 0 40 "FBT2" "Not set")],
          diceRounds := [("r1", { status := RoundStatus.openR, numberColors := [] })],
          diceBets := [("b1", mkBet "u1" "alice" "r1" 3 100),
                       ("b2", mkBet "w1" "bob" "r1" 2 100)] }).users "u1" =
      some (mkUser "alice" 300 0 "FBT1" "Not set") ∧
    (mkUser "alice" 300 0 "FBT1" "Not set").points ≠ 500 + 200 ∧
    getUser (closeRoundAndResolve "r1"
        [(2, DiceColor.white), (3, DiceColor.red)]
        { emptyDB with
          users := [("u1", mkUser "alice" 500 0 "FBT1" "Not set"),
                    ("w1", mkUser "bob" 0 40 "FBT2" "Not set")],
          diceRounds := [("r1", { status := RoundStatus.openR, numberColors := [] })],
          diceBets := [("b1", mkBet "u1" "alice" "r1" 3 100),
                       ("b2", mkBet "w1" "bob" "r1" 2 100)] }).users "w1" =
      some (mkUser "bob" 0 40 "FBT2" "Not set") := by
  refine ⟨?_, ?_, ?_, ?_, ?_⟩ <;> decide

/-- A bet processed by the resolution batch never remains pending. -/
theorem resolveBet_status_ne_pending (nc : NumberColors) (b : DiceBet) :
    (resolveBet nc b).status ≠ DiceStatus.pending := by
  show (if colorAt nc b.chosenNumber = DiceColor.none
    then DiceStatus.lost else DiceStatus.won) ≠ DiceStatus.pending
  split <;> simp

/-- Lookup after an id-targeted update returns the mapped document. -/
theorem lookupDoc_updateDocById {α : Type} (l : List (String × α)) (did : String)
    (f : α → α) : lookupDoc (updateDocById l did f) did = (lookupDoc l did).map f := by
  induction l with
  | nil => rfl
  | cons p rest ih =>
    obtain ⟨i, d⟩ := p
    by_cases h : i = did
    · subst h
      have h1 : updateDocById ((i, d) :: rest) i f = (i, f d) :: updateDocById rest i f := by
        simp [updateDocById]
      rw [h1]
      show (if i = i then some (f d) else lookupDoc (updateDocById rest i f) i) =
        Option.map f (if i = i then some d else lookupDoc rest i)
      rw [if_pos rfl, if_pos rfl]
      rfl
    · have h1 : updateDocById ((i, d) :: rest) did f = (i, d) :: updateDocById rest did f := by
        simp [updateDocById, h]
      rw [h1]
      show (if i = did then some d else lookupDoc (updateDocById rest did f) did) =
        Option.map f (if i = did then some d else lookupDoc rest did)
      rw [if_neg h, if_neg h]
      exact ih

/-- Claim C4 (counterexample): resolving a round is NOT one atomic batch.
The round-closing `updateDoc` commits before the bet batch, so the state
after the first commit has the round `closed` while its only bet is still
`pending` — a reader can observe a half-resolved round. -/
theorem claim_C4_counterexample :
    ¬ (∀ t ∈ closeRoundAndResolveStates "r1" [(1, DiceColor.red)]
        { emptyDB with
          users := [("u1", mkUser "alice" 100 0 "FBT1" "Not set")],
          diceRounds := [("r1", { status := RoundStatus.openR, numberColors := [] })],
          diceBets := [("b1", mkBet "u1" "alice" "r1" 1 50)] },
        (lookupDoc t.diceRounds "r1").map DiceRound.status = some RoundStatus.closedR →
          ∀ p ∈ t.diceBets, p.2.status ≠ DiceStatus.pending) := by
  decide

/-- Claim C4 (amended): the bet status updates and winner credits do
commit as one atomic batch, but the round's `open → closed` transition
commits in a separate earlier write.  Hence in every observable state the
round's bets are either all still pending or all resolved (never a
mixture), while a state with the round closed and every bet pending is
observable; conversely any state showing a resolved bet of the round
already shows the round closed. -/
theorem claim_C4_amended_split_commit_atomicity (rid : String) (nc : NumberColors)
    (db : DB) (hpend : ∀ p ∈ db.diceBets, p.2.status = DiceStatus.pending) :
    ∀ t ∈ closeRoundAndResolveStates rid nc db,
      ((∀ p ∈ t.diceBets, p.2.roundId = rid → p.2.status = DiceStatus.pending) ∨
        (∀ p ∈ t.diceBets, p.2.roundId = rid → p.2.status ≠ DiceStatus.pending)) ∧
      ((∃ p ∈ t.diceBets, p.2.roundId = rid ∧ p.2.status ≠ DiceStatus.pending) →
        ∃ r, lookupDoc t.diceRounds rid = some r ∧ r.status = RoundStatus.closedR) := by
  intro t ht
  unfold closeRoundAndResolveStates at ht
  cases hq : lookupDoc db.diceRounds rid with
  | none =>
    rw [hq] at ht
    simp only [List.mem_singleton] at ht
    subst ht
    refine ⟨Or.inl (fun p hp _ => hpend p hp), ?_⟩
    rintro ⟨p, hp, _, hne⟩
    exact absurd (hpend p hp) hne
  | some r =>
    simp only [hq] at ht
    by_cases hc : r.status = RoundStatus.openR ∧ hasWinner nc = true
    · rw [if_pos hc] at ht
      simp only [List.mem_cons, List.not_mem_nil, or_false] at ht
      rcases ht with rfl | rfl | rfl
      · refine ⟨Or.inl (fun p hp _ => hpend p hp), ?_⟩
        rintro ⟨p, hp, _, hne⟩
        exact absurd (hpend p hp) hne
      · refine ⟨Or.inl (fun p hp _ => hpend p hp), ?_⟩
        rintro ⟨p, hp, _, hne⟩
        exact absurd (hpend p hp) hne
      · constructor
        · refine Or.inr ?_
          intro p hp hrid
          rcases List.mem_map.1 hp with ⟨q, hq2, rfl⟩
          by_cases hqr : q.2.roundId = rid
          · rw [if_pos hqr]
            exact resolveBet_status_ne_pending nc q.2
          · rw [if_neg hqr] at hrid ⊢
            exact absurd hrid hqr
        · intro _
          refine ⟨{ r with status := RoundStatus.closedR, numberColors := nc }, ?_, rfl⟩
          show lookupDoc (updateDocById db.diceRounds rid
            (fun q => { q with status := RoundStatus.closedR, numberColors := nc })) rid =
            some { r with status := RoundStatus.closedR, numberColors := nc }
          rw [lookupDoc_updateDocById, hq]
          rfl
    · rw [if_neg hc] at ht
      simp only [List.mem_singleton] at ht
      subst ht
      refine ⟨Or.inl (fun p hp _ => hpend p hp), ?_⟩
      rintro ⟨p, hp, _, hne⟩
      exact absurd (hpend p hp) hne

/-- Witness for the amended C4 theorem at the counterexample input. -/
theorem claim_C4_amended_split_commit_atomicity_witness :
    (∀ p ∈ ({ emptyDB with
        users := [("u1", mkUser "alice" 100 0 "FBT1" "Not set")],
        diceRounds := [("r1", { status := RoundStatus.openR, numberColors := [] })],
        diceBets := [("b1", mkBet "u1" "alice" "r1" 1 50)] } : DB).diceBets,
      p.2.status = DiceStatus.pending) ∧
    (∀ t ∈ closeRoundAndResolveStates "r1" [(1, DiceColor.red)]
        { emptyDB with
          users := [("u1", mkUser "alice" 100 0 "FBT1" "Not set")],
          diceRounds := [("r1", { status := RoundStatus.openR, numberColors := [] })],
          diceBets := [("b1", mkBet "u1" "alice" "r1" 1 50)] },
      ((∀ p ∈ t.diceBets, p.2.roundId = "r1" → p.2.status = DiceStatus.pending) ∨
        (∀ p ∈ t.diceBets, p.2.roundId = "r1" → p.2.status ≠ DiceStatus.pending)) ∧
      ((∃ p ∈ t.diceBets, p.2.roundId = "r1" ∧ p.2.status ≠ DiceStatus.pending) →
        ∃ r, lookupDoc t.diceRounds "r1" = some r ∧ r.status = RoundStatus.closedR)) :=
  ⟨by decide,
    claim_C4_amended_split_commit_atomicity "r1" [(1, DiceColor.red)] _ (by decide)⟩

/-- Lookup after an id-targeted user update returns the mapped document. -/
theorem getUser_updateUser (us : Users) (uid : String) (f : UserDoc → UserDoc) :
    getUser (updateUser us uid f) uid = (getUser us uid).map f := by
  induction us with
  | nil => rfl
  | cons p rest ih =>
    obtain ⟨i, d⟩ := p
    by_cases h : i = uid
    · subst h
      have h1 : updateUser ((i, d) :: rest) i f = (i, f d) :: updateUser rest i f := by
        simp [updateUser]
      rw [h1]
      show (if i = i then some (f d) else getUser (updateUser rest i f) i) =
        Option.map f (if i = i then some d else getUser rest i)
      rw [if_pos rfl, if_pos rfl]
      rfl
    · have h1 : updateUser ((i, d) :: rest) uid f = (i, d) :: updateUser rest uid f := by
        simp [updateUser, h]
      rw [h1]
      show (if i = uid then some d else getUser (updateUser rest uid f) uid) =
        Option.map f (if i = uid then some d else getUser rest uid)
      rw [if_neg h, if_neg h]
      exact ih

/-- An update of one user does not change lookups of another. -/
theorem getUser_updateUser_ne (us : Users) (uid vid : String) (f : UserDoc → UserDoc)
    (hne : uid ≠ vid) : getUser (updateUser us uid f) vid = getUser us vid := by
  induction us with
  | nil => rfl
  | cons p rest ih =>
    obtain ⟨i, d⟩ := p
    by_cases h : i = uid
    · subst h
      have h1 : updateUser ((i, d) :: rest) i f = (i, f d) :: updateUser rest i f := by
        simp [updateUser]
      rw [h1]
      show (if i = vid then some (f d) else getUser (updateUser rest i f) vid) =
        (if i = vid then some d else getUser rest vid)
      rw [if_neg hne, if_neg hne]
      exact ih
    · have h1 : updateUser ((i, d) :: rest) uid f = (i, d) :: updateUser rest uid f := by
        simp [updateUser, h]
      rw [h1]
      show (if i = vid then some d else getUser (updateUser rest uid f) vid) =
        (if i = vid then some d else getUser rest vid)
      by_cases hv : i = vid
      · rw [if_pos hv, if_pos hv]
      · rw [if_neg hv, if_neg hv]
        exact ih

/-- With unique ids a member entry is what `getUser` returns. -/
theorem getUser_of_mem_nodup {us : Users} {i : String} {d : UserDoc}
    (hnd : (us.map Prod.fst).Nodup) (hmem : (i, d) ∈ us) :
    getUser us i = some d := by
  induction us with
  | nil => simp at hmem
  | cons p rest ih =>
    obtain ⟨j, e⟩ := p
    simp only [List.map_cons, List.nodup_cons] at hnd
    rcases List.mem_cons.1 hmem with heq | htail
    · cases heq
      show (if i = i then some d else getUser rest i) = some d
      rw [if_pos rfl]
    · by_cases hj : j = i
      · subst hj
        exact absurd (List.mem_map.2 ⟨(j, d), htail, rfl⟩) hnd.1
      · show (if j = i then some e else getUser rest i) = some d
        rw [if_neg hj]
        exact ih hnd.2 htail

/-- A `find?` query over a field untouched by an update commutes with the
update. -/
theorem find?_updateUser_pred (us : Users) (uid : String) (f : UserDoc → UserDoc)
    (pred : UserDoc → Bool) (hpred : ∀ d, pred (f d) = pred d) :
    (updateUser us uid f).find? (fun p => pred p.2) =
      (us.find? (fun p => pred p.2)).map
        (fun p => if p.1 = uid then (p.1, f p.2) else p) := by
  induction us with
  | nil => rfl
  | cons p rest ih =>
    obtain ⟨i, d⟩ := p
    by_cases hk : i = uid
    · subst hk
      have h1 : updateUser ((i, d) :: rest) i f = (i, f d) :: updateUser rest i f := by
        simp [updateUser]
      rw [h1]
      by_cases hp : pred d
      · rw [List.find?_cons_of_pos _ (by simpa [hpred] using hp),
          List.find?_cons_of_pos _ (by simpa using hp)]
        simp
      · rw [List.find?_cons_of_neg _ (by simpa [hpred] using hp),
          List.find?_cons_of_neg _ (by simpa using hp)]
        exact ih
    · have h1 : updateUser ((i, d) :: rest) uid f = (i, d) :: updateUser rest uid f := by
        simp [updateUser, hk]
      rw [h1]
      by_cases hp : pred d
      · rw [List.find?_cons_of_pos _ (by simpa using hp),
          List.find?_cons_of_pos _ (by simpa using hp)]
        simp [hk]
      · rw [List.find?_cons_of_neg _ (by simpa using hp),
          List.find?_cons_of_neg _ (by simpa using hp)]
        exact ih

/-- Recipient resolution commutes with a balance-only update (one that
keeps `username` and `referralCode`). -/
theorem resolveRecipient_updateUser (us : Users) (uid ident : String)
    (f : UserDoc → UserDoc)
    (hname : ∀ d, (f d).username = d.username)
    (hcode : ∀ d, (f d).referralCode = d.referralCode) :
    resolveRecipient (updateUser us uid f) ident =
      (resolveRecipient us ident).map
        (fun p => if p.1 = uid then (p.1, f p.2) else p) := by
  unfold resolveRecipient findByReferralCode findByUsername
  by_cases hs : isReferralIdent ident = true
  · rw [if_pos hs, if_pos hs]
    exact find?_updateUser_pred us uid f (fun d => d.referralCode = ident)
      (fun d => by simp [hcode])
  · rw [if_neg hs, if_neg hs]
    exact find?_updateUser_pred us uid f (fun d => d.username = lowerStr ident)
      (fun d => by simp [hname])

/-- A map that fixes every member is the identity. -/
theorem map_eq_self_of_mem {α : Type} {l : List α} {f : α → α}
    (h : ∀ x ∈ l, f x = x) : l.map f = l := by
  induction l with
  | nil => rfl
  | cons a rest ih =>
    rw [List.map_cons, h a (List.mem_cons_self _ _),
      ih (fun x hx => h x (List.mem_cons_of_mem _ hx))]

/-- Shape of a successful direct transfer: the exact two balance writes
of `transferPoints` (src/unnamed/part_001 lines 196-237) and the
validations that must have passed. -/
theorem transferPoints_direct_spec {db db' : DB} {uid ident : String} {amt : Int}
    {sender : UserDoc} {rid : String} {rdata : UserDoc}
    (hg : getUser db.users uid = some sender)
    (hr : resolveRecipient db.users ident = some (rid, rdata))
    (h : transferPoints db uid ident amt true = some db') :
    db'.users = updateUser (updateUser db.users uid
        (fun d => { d with points := sender.points - amt }))
      rid (fun d => { d with points := rdata.points + amt }) ∧
    0 < amt ∧ amt ≤ sender.points ∧ rid ≠ uid := by
  unfold transferPoints at h
  by_cases hu : uid = ""
  · simp [hu] at h
  by_cases hi : ident = ""
  · simp [hu, hi] at h
  by_cases ha : amt ≤ 0
  · simp [hu, hi, ha] at h
  simp only [hu, hi, ha, if_false] at h
  rw [hg] at h
  by_cases hp : sender.points < amt
  · simp [hp] at h
  simp only [hp, if_false] at h
  rw [hr] at h
  by_cases hself : rid = uid
  · simp [hself] at h
  simp only [hself, if_false, if_pos rfl] at h
  injection h with h
  subst h
  exact ⟨rfl, by omega, by omega, hself⟩

/-- Claim C5: when an administrator processes a pending point-transfer
request and the sender's balance at processing time is below the
requested amount, the request is auto-declined with the recorded reason
"Insufficient points", and no user balance and no transaction log entry
changes — whichever button the admin pressed
(vip-admin.tsx lines 257-278). -/
theorem claim_C5_insufficient_transfer_auto_declined {db db' : DB}
    {reqId : String} {approve : Bool} {req : Request}
    {recipientId recipientUsername : String} {amount : Int} {senderData : UserDoc}
    (hreq : lookupDoc db.requests reqId = some req)
    (hpay : req.payload = ReqPayload.pointTransfer recipientId recipientUsername amount)
    (hsender : getUser db.users req.userId = some senderData)
    (hins : senderData.points < amount)
    (hrun : handleTransferRequest db reqId approve = some db') :
    db'.users = db.users ∧ db'.txns = db.txns ∧
    lookupDoc db'.requests reqId =
      some { req with status := ReqStatus.declined,
                      declineReason := some "Insufficient points" } := by
  unfold handleTransferRequest at hrun
  rw [hreq] at hrun
  simp only [hpay] at hrun
  simp only [hsender] at hrun
  rw [if_pos hins] at hrun
  injection hrun with hrun
  subst hrun
  refine ⟨rfl, rfl, ?_⟩
  show lookupDoc (updateDocById db.requests reqId
    (fun r => { r with status := ReqStatus.declined,
                       declineReason := some "Insufficient points" })) reqId = _
  rw [lookupDoc_updateDocById, hreq]
  rfl

/-- Witness for C5: a pending 50-point transfer request from a sender
holding only 10 points is auto-declined with reason and no balance or log
change, even though the admin pressed approve. -/
theorem claim_C5_insufficient_transfer_auto_declined_witness :
    (lookupDoc ({ emptyDB with
        users := [("u1", mkUser "alice" 10 0 "FBT1" "Not set"),
                  ("u2", mkUser "bob" 0 0 "FBT2" "Not set")],
        requests := [("q1",
          { userId := "u1", username := "alice",
            payload := ReqPayload.pointTransfer "u2" "bob" 50,
            status := ReqStatus.pending, declineReason := Option.none })] } : DB).requests
        "q1" =
      some { userId := "u1", username := "alice",
             payload := ReqPayload.pointTransfer "u2" "bob" 50,
             status := ReqStatus.pending, declineReason := Option.none }) ∧
    (handleTransferRequest { emptyDB with
        users := [("u1", mkUser "alice" 10 0 "FBT1" "Not set"),
                  ("u2", mkUser "bob" 0 0 "FBT2" "Not set")],
        requests := [("q1",
          { userId := "u1", username := "alice",
            payload := ReqPayload.pointTransfer "u2" "bob" 50,
            status := ReqStatus.pending, declineReason := Option.none })] } "q1" true).isSome
      = true ∧
    ∀ db2, handleTransferRequest { emptyDB with
        users := [("u1", mkUser "alice" 10 0 "FBT1" "Not set"),
                  ("u2", mkUser "bob" 0 0 "FBT2" "Not set")],
        requests := [("q1",
          { userId := "u1", username := "alice",
            payload := ReqPayload.pointTransfer "u2" "bob" 50,
            status := ReqStatus.pending, declineReason := Option.none })] } "q1" true =
        some db2 →
      db2.users = ({ emptyDB with
        users := [("u1", mkUser "alice" 10 0 "FBT1" "Not set"),
                  ("u2", mkUser "bob" 0 0 "FBT2" "Not set")],
        requests := [("q1",
          { userId := "u1", username := "alice",
            payload := ReqPayload.pointTransfer "u2" "bob" 50,
            status := ReqStatus.pending, declineReason := Option.none })] } : DB).users ∧
      db2.txns = [] ∧
      lookupDoc db2.requests "q1" =
        some { userId := "u1", username := "alice",
               payload := ReqPayload.pointTransfer "u2" "bob" 50,
               status := ReqStatus.declined,
               declineReason := some "Insufficient points" } := by
  refine ⟨by decide, by decide, ?_⟩
  intro db2 h2
  exact @claim_C5_insufficient_transfer_auto_declined
    { emptyDB with
      users := [("u1", mkUser "alice" 10 0 "FBT1" "Not set"),
                ("u2", mkUser "bob" 0 0 "FBT2" "Not set")],
      requests := [("q1",
        { userId := "u1", username := "alice",
          payload := ReqPayload.pointTransfer "u2" "bob" 50,
          status := ReqStatus.pending, declineReason := Option.none })] }
    db2 "q1" true
    { userId := "u1", username := "alice",
      payload := ReqPayload.pointTransfer "u2" "bob" 50,
      status := ReqStatus.pending, declineReason := Option.none }
    "u2" "bob" 50 (mkUser "alice" 10 0 "FBT1" "Not set")
    (by decide) (by decide) (by decide) (by decide) h2

/-- Claim C6: declining a Request whose creation pre-debited funds
refunds exactly the original amount — declining an investment credits
`amount` back to the owner's points (part_004 lines 92-142) and
cancelling an ultra-manual bet increments the owner's points by the bet
amount (part_004 lines 1347-1388) — while declining a Request that never
moved funds leaves every balance unchanged: a point-transfer decline
(vip-admin.tsx lines 339-347) and an upgrade decline (modelled from the
spec, `processUpgradeRequest` is not in src) touch no user document. -/
theorem claim_C6_decline_refund_semantics :
    (∀ (db db' : DB) (iid : String) (inv : Investment) (u : UserDoc),
      lookupDoc db.investments iid = some inv →
      getUser db.users inv.userId = some u →
      handleDecline db iid = some db' →
      getUser db'.users inv.userId =
        some { u with points := u.points + inv.amount } ∧
      lookupDoc db'.investments iid = some { inv with status := InvStatus.declined }) ∧
    (∀ (db db' : DB) (bid : String) (bet : UltraBet) (u : UserDoc),
      lookupDoc db.ultraBets bid = some bet →
      getUser db.users bet.userId = some u →
      cancelBet db bid = some db' →
      getUser db'.users bet.userId =
        some { u with points := u.points + bet.amount } ∧
      lookupDoc db'.ultraBets bid = some { bet with status := UltraStatus.cancelled }) ∧
    (∀ (db db' : DB) (rid : String),
      handleTransferRequest db rid false = some db' → db'.users = db.users) ∧
    (∀ (db db' : DB) (rid : String),
      processUpgradeRequest db rid false = some db' → db'.users = db.users) := by
  refine ⟨?_, ?_, ?_, ?_⟩
  · intro db db' iid inv u hq hu hrun
    unfold handleDecline at hrun
    rw [hq] at hrun
    simp only [hu] at hrun
    injection hrun with hrun
    subst hrun
    constructor
    · dsimp only
      rw [getUser_updateUser, hu]
      rfl
    · dsimp only
      rw [lookupDoc_updateDocById, hq]
      rfl
  · intro db db' bid bet u hq hu hrun
    unfold cancelBet at hrun
    rw [hq] at hrun
    simp only [hu] at hrun
    injection hrun with hrun
    subst hrun
    constructor
    · dsimp only
      rw [getUser_updateUser, hu]
      rfl
    · dsimp only
      rw [lookupDoc_updateDocById, hq]
      rfl
  · intro db db' rid hrun
    unfold handleTransferRequest at hrun
    cases hq : lookupDoc db.requests rid with
    | none => rw [hq] at hrun; cases hrun
    | some request =>
      rw [hq] at hrun
      cases hpay : request.payload with
      | vipUpgrade a b => simp [hpay] at hrun
      | withdrawal a => simp [hpay] at hrun
      | loan a => simp [hpay] at hrun
      | pointTransfer recipientId recipientUsername amount =>
        simp only [hpay] at hrun
        cases hg : getUser db.users request.userId with
        | none => simp [hg] at hrun
        | some senderData =>
          simp only [hg] at hrun
          by_cases hp : senderData.points < amount
          · rw [if_pos hp] at hrun
            injection hrun with hrun
            subst hrun
            rfl
          · rw [if_neg hp, if_neg Bool.false_ne_true] at hrun
            injection hrun with hrun
            subst hrun
            rfl
  · intro db db' rid hrun
    unfold processUpgradeRequest at hrun
    cases hq : lookupDoc db.requests rid with
    | none => rw [hq] at hrun; cases hrun
    | some request =>
      rw [hq] at hrun
      cases hpay : request.payload with
      | pointTransfer a b c => simp [hpay] at hrun
      | withdrawal a => simp [hpay] at hrun
      | loan a => simp [hpay] at hrun
      | vipUpgrade a b =>
        simp only [hpay] at hrun
        injection hrun with hrun
        subst hrun
        rfl

/-- Witness for C6 at concrete inputs: an investment decline refunds 100
points (10 becomes 110), an ultra-bet cancellation refunds 40 points
(5 becomes 45), and declining a point-transfer request or an upgrade
request leaves the users collection untouched. -/
theorem claim_C6_decline_refund_semantics_witness :
    handleDecline { emptyDB with
        users := [("u1", mkUser "alice" 10 0 "FBT1" "Not set")],
        investments := [("i1", { userId := "u1", username := "alice", amount := 100,
                                 interestRate := 0, status := InvStatus.pending })] } "i1" =
      some { emptyDB with
        users := [("u1", mkUser "alice" 110 0 "FBT1" "Not set")],
        txns := [{ userId := "u1", amount := some 100,
                   type := TxnType.investment_declined,
                   desc := Descr.investmentDeclined 100,
                   balanceAfter := some (110, 0) }],
        investments := [("i1", { userId := "u1", username := "alice", amount := 100,
                                 interestRate := 0, status := InvStatus.declined })] } ∧
    cancelBet { emptyDB with
        users := [("u2", mkUser "bob" 5 0 "FBT2" "Not set")],
        ultraBets := [("b1", { userId := "u2", username := "bob", amount := 40,
                               note := "hi", status := UltraStatus.pending })] } "b1" =
      some { emptyDB with
        users := [("u2", mkUser "bob" 45 0 "FBT2" "Not set")],
        txns := [{ userId := "u2", amount := some 40,
                   type := TxnType.ultra_manual_cancelled,
                   desc := Descr.ultraCancelled 40,
                   balanceAfter := Option.none }],
        ultraBets := [("b1", { userId := "u2", username := "bob", amount := 40,
                               note := "hi", status := UltraStatus.cancelled })] } ∧
    getUser ({ emptyDB with
        users := [("u1", mkUser "alice" 110 0 "FBT1" "Not set")],
        txns := [{ userId := "u1", amount := some 100,
                   type := TxnType.investment_declined,
                   desc := Descr.investmentDeclined 100,
                   balanceAfter := some (110, 0) }],
        investments := [("i1", { userId := "u1", username := "alice", amount := 100,
                                 interestRate := 0, status := InvStatus.declined })] } : DB).users
        "u1" =
      some { mkUser "alice" 10 0 "FBT1" "Not set" with
             points := (mkUser "alice" 10 0 "FBT1" "Not set").points + 100 } ∧
    getUser ({ emptyDB with
        users := [("u2", mkUser "bob" 45 0 "FBT2" "Not set")],
        txns := [{ userId := "u2", amount := some 40,
                   type := TxnType.ultra_manual_cancelled,
                   desc := Descr.ultraCancelled 40,
                   balanceAfter := Option.none }],
        ultraBets := [("b1", { userId := "u2", username := "bob", amount := 40,
                               note := "hi", status := UltraStatus.cancelled })] } : DB).users
        "u2" =
      some { mkUser "bob" 5 0 "FBT2" "Not set" with
             points := (mkUser "bob" 5 0 "FBT2" "Not set").points + 40 } ∧
    (∀ db3, handleTransferRequest { emptyDB with
        users := [("u1", mkUser "alice" 60 0 "FBT1" "Not set"),
                  ("u2", mkUser "bob" 0 0 "FBT2" "Not set")],
        requests := [("q1", { userId := "u1", username := "alice",
                              payload := ReqPayload.pointTransfer "u2" "bob" 50,
                              status := ReqStatus.pending,
                              declineReason := Option.none })] } "q1" false = some db3 →
      db3.users = ({ emptyDB with
        users := [("u1", mkUser "alice" 60 0 "FBT1" "Not set"),
                  ("u2", mkUser "bob" 0 0 "FBT2" "Not set")],
        requests := [("q1", { userId := "u1", username := "alice",
                              payload := ReqPayload.pointTransfer "u2" "bob" 50,
                              status := ReqStatus.pending,
                              declineReason := Option.none })] } : DB).users) ∧
    (∀ db4, processUpgradeRequest { emptyDB with
        users := [("u1", mkUser "alice" 60 0 "FBT1" "Not set")],
        requests := [("g1", { userId := "u1", username := "alice",
                              payload := ReqPayload.vipUpgrade 0 1,
                              status := ReqStatus.pending,
                              declineReason := Option.none })] } "g1" false = some db4 →
      db4.users = ({ emptyDB with
        users := [("u1", mkUser "alice" 60 0 "FBT1" "Not set")],
        requests := [("g1", { userId := "u1", username := "alice",
                              payload := ReqPayload.vipUpgrade 0 1,
                              status := ReqStatus.pending,
                              declineReason := Option.none })] } : DB).users) := by
  refine ⟨by decide, by decide, ?_, ?_, ?_, ?_⟩
  · exact (claim_C6_decline_refund_semantics.1
      { emptyDB with
        users := [("u1", mkUser "alice" 10 0 "FBT1" "Not set")],
        investments := [("i1", { userId := "u1", username := "alice", amount := 100,
                                 interestRate := 0, status := InvStatus.pending })] }
      { emptyDB with
        users := [("u1", mkUser "alice" 110 0 "FBT1" "Not set")],
        txns := [{ userId := "u1", amount := some 100,
                   type := TxnType.investment_declined,
                   desc := Descr.investmentDeclined 100,
                   balanceAfter := some (110, 0) }],
        investments := [("i1", { userId := "u1", username := "alice", amount := 100,
                                 interestRate := 0, status := InvStatus.declined })] }
      "i1"
      { userId := "u1", username := "alice", amount := 100,
        interestRate := 0, status := InvStatus.pending }
      (mkUser "alice" 10 0 "FBT1" "Not set")
      (by decide) (by decide) (by decide)).1
  · exact (claim_C6_decline_refund_semantics.2.1
      { emptyDB with
        users := [("u2", mkUser "bob" 5 0 "FBT2" "Not set")],
        ultraBets := [("b1", { userId := "u2", username := "bob", amount := 40,
                               note := "hi", status := UltraStatus.pending })] }
      { emptyDB with
        users := [("u2", mkUser "bob" 45 0 "FBT2" "Not set")],
        txns := [{ userId := "u2", amount := some 40,
                   type := TxnType.ultra_manual_cancelled,
                   desc := Descr.ultraCancelled 40,
                   balanceAfter := Option.none }],
        ultraBets := [("b1", { userId := "u2", username := "bob", amount := 40,
                               note := "hi", status := UltraStatus.cancelled })] }
      "b1"
      { userId := "u2", username := "bob", amount := 40,
        note := "hi", status := UltraStatus.pending }
      (mkUser "bob" 5 0 "FBT2" "Not set")
      (by decide) (by decide) (by decide)).1
  · intro db3 h3
    exact claim_C6_decline_refund_semantics.2.2.1 _ db3 "q1" h3
  · intro db4 h4
    exact claim_C6_decline_refund_semantics.2.2.2 _ db4 "g1" h4

/-- Claim C7: completing an approved investment credits the investor's
points with exactly `payout = floor(amount * (1 + interestRate/100))`,
marks the investment completed, and appends an `investment_completed`
transaction whose recorded profit is `payout - amount`
(part_004 lines 144-197); in particular 1000 points at 5% yields a 1050
payout with profit 50. -/
theorem claim_C7_investment_completion {db db' : DB} {iid : String}
    {inv : Investment} {u : UserDoc}
    (hq : lookupDoc db.investments iid = some inv)
    (_hst : inv.status = InvStatus.approved)
    (hu : getUser db.users inv.userId = some u)
    (hrun : handleComplete db iid = some db') :
    getUser db'.users inv.userId =
      some { u with points := u.points + investmentPayout inv.amount inv.interestRate } ∧
    lookupDoc db'.investments iid = some { inv with status := InvStatus.completed } ∧
    db'.txns = db.txns ++
      [{ userId := inv.userId,
         amount := some (investmentPayout inv.amount inv.interestRate),
         type := TxnType.investment_completed,
         desc := Descr.investmentCompleted inv.amount inv.interestRate
           (investmentPayout inv.amount inv.interestRate - inv.amount),
         balanceAfter := some
           (u.points + investmentPayout inv.amount inv.interestRate, u.cash) }] ∧
    investmentPayout 1000 5 = 1050 ∧
    investmentPayout 1000 5 - 1000 = 50 := by
  have hex : investmentPayout 1000 5 = 1050 := by
    unfold investmentPayout
    norm_num
  unfold handleComplete at hrun
  rw [hq] at hrun
  simp only [hu] at hrun
  injection hrun with hrun
  subst hrun
  refine ⟨?_, ?_, ?_, hex, by rw [hex]; norm_num⟩
  · dsimp only
    rw [getUser_updateUser, hu]
    rfl
  · dsimp only
    rw [lookupDoc_updateDocById, hq]
    rfl
  · rfl

/-- Witness for C7: completing an approved 1000-point investment at 5%
interest for a user holding 20 points. -/
theorem claim_C7_investment_completion_witness :
    (lookupDoc ({ emptyDB with
        users := [("u1", mkUser "alice" 20 0 "FBT1" "Not set")],
        investments := [("i1", { userId := "u1", username := "alice", amount := 1000,
                                 interestRate := 5, status := InvStatus.approved })] } : DB).investments
        "i1" =
      some { userId := "u1", username := "alice", amount := 1000,
             interestRate := 5, status := InvStatus.approved }) ∧
    (∀ db2, handleComplete { emptyDB with
        users := [("u1", mkUser "alice" 20 0 "FBT1" "Not set")],
        investments := [("i1", { userId := "u1", username := "alice", amount := 1000,
                                 interestRate := 5, status := InvStatus.approved })] } "i1" =
        some db2 →
      getUser db2.users "u1" =
        some { mkUser "alice" 20 0 "FBT1" "Not set" with
               points := (mkUser "alice" 20 0 "FBT1" "Not set").points +
                 investmentPayout 1000 5 } ∧
      lookupDoc db2.investments "i1" =
        some { userId := "u1", username := "alice", amount := 1000,
               interestRate := 5, status := InvStatus.completed } ∧
      investmentPayout 1000 5 = 1050 ∧
      investmentPayout 1000 5 - 1000 = 50) := by
  refine ⟨by decide, ?_⟩
  intro db2 h2
  have h := @claim_C7_investment_completion
    { emptyDB with
      users := [("u1", mkUser "alice" 20 0 "FBT1" "Not set")],
      investments := [("i1", { userId := "u1", username := "alice", amount := 1000,
                               interestRate := 5, status := InvStatus.approved })] }
    db2 "i1"
    { userId := "u1", username := "alice", amount := 1000,
      interestRate := 5, status := InvStatus.approved }
    (mkUser "alice" 20 0 "FBT1" "Not set")
    (by decide) (by decide) (by decide) h2
  exact ⟨h.1, h.2.1, h.2.2.2.1, h.2.2.2.2⟩

/-- Claim C8: with direct transfers disabled (`directTransfer = false`),
a transfer request from a sender with sufficient points to a resolvable
recipient creates exactly one pending `point_transfer` request and leaves
every user balance and the transaction log untouched
(part_001 lines 238-251). -/
theorem claim_C8_pending_request_no_mutation {db db' : DB} {uid ident : String}
    {amt : Int} {sender : UserDoc} {rid : String} {rdata : UserDoc}
    (hg : getUser db.users uid = some sender)
    (hr : resolveRecipient db.users ident = some (rid, rdata))
    (hrun : transferPoints db uid ident amt false = some db') :
    db'.users = db.users ∧ db'.txns = db.txns ∧
    db'.requests = db.requests ++
      [(freshId db.requests,
        { userId := uid, username := sender.username,
          payload := ReqPayload.pointTransfer rid rdata.username amt,
          status := ReqStatus.pending, declineReason := Option.none })] := by
  unfold transferPoints at hrun
  by_cases hu : uid = ""
  · simp [hu] at hrun
  by_cases hi : ident = ""
  · simp [hu, hi] at hrun
  by_cases ha : amt ≤ 0
  · simp [hu, hi, ha] at hrun
  simp only [hu, hi, ha, if_false] at hrun
  rw [hg] at hrun
  by_cases hp : sender.points < amt
  · simp [hp] at hrun
  simp only [hp, if_false] at hrun
  rw [hr] at hrun
  by_cases hself : rid = uid
  · simp [hself] at hrun
  simp only [hself, if_false, if_neg Bool.false_ne_true] at hrun
  injection hrun with hrun
  subst hrun
  exact ⟨rfl, rfl, rfl⟩

/-- Witness for C8: a 50-point request from a 200-point sender to the
existing username bob creates the pending request and changes nothing
else. -/
theorem claim_C8_pending_request_no_mutation_witness :
    (getUser ({ emptyDB with
        users := [("u1", mkUser "alice" 200 0 "FBT1" "Not set"),
                  ("u2", mkUser "bob" 7 0 "FBT2" "Not set")] } : DB).users "u1" =
      some (mkUser "alice" 200 0 "FBT1" "Not set")) ∧
    (resolveRecipient ({ emptyDB with
        users := [("u1", mkUser "alice" 200 0 "FBT1" "Not set"),
                  ("u2", mkUser "bob" 7 0 "FBT2" "Not set")] } : DB).users "bob" =
      some ("u2", mkUser "bob" 7 0 "FBT2" "Not set")) ∧
    ∀ db2, transferPoints { emptyDB with
        users := [("u1", mkUser "alice" 200 0 "FBT1" "Not set"),
                  ("u2", mkUser "bob" 7 0 "FBT2" "Not set")] } "u1" "bob" 50 false =
        some db2 →
      db2.users = ({ emptyDB with
        users := [("u1", mkUser "alice" 200 0 "FBT1" "Not set"),
                  ("u2", mkUser "bob" 7 0 "FBT2" "Not set")] } : DB).users ∧
      db2.txns = [] ∧
      db2.requests = [("doc0",
        { userId := "u1", username := "alice",
          payload := ReqPayload.pointTransfer "u2" "bob" 50,
          status := ReqStatus.pending, declineReason := Option.none })] := by
  refine ⟨by decide, by decide, ?_⟩
  intro db2 h2
  exact @claim_C8_pending_request_no_mutation
    { emptyDB with
      users := [("u1", mkUser "alice" 200 0 "FBT1" "Not set"),
                ("u2", mkUser "bob" 7 0 "FBT2" "Not set")] }
    db2 "u1" "bob" 50 (mkUser "alice" 200 0 "FBT1" "Not set")
    "u2" (mkUser "bob" 7 0 "FBT2" "Not set")
    (by decide) (by decide) h2

/-- Claim C9: for two distinct accounts and a valid amount covered by the
sender's balance, a direct transfer from A to B followed by a direct
transfer of the same amount from B back to A restores the users
collection — both balances return to their original values
(part_001 lines 196-237). -/
theorem claim_C9_transfer_round_trip {db db1 db2 : DB} {A B iA iB : String}
    {amt : Int} {a b : UserDoc}
    (hnd : (db.users.map Prod.fst).Nodup)
    (hA : getUser db.users A = some a)
    (hrB : resolveRecipient db.users iB = some (B, b))
    (hrA : resolveRecipient db.users iA = some (A, a))
    (h1 : transferPoints db A iB amt true = some db1)
    (h2 : transferPoints db1 B iA amt true = some db2) :
    db2.users = db.users := by
  obtain ⟨husers1, hpos, hle, hBA⟩ := transferPoints_direct_spec hA hrB h1
  have hABne : A ≠ B := fun h => hBA h.symm
  have hBu : getUser db.users B = some b :=
    getUser_of_mem_nodup hnd (resolveRecipient_mem hrB)
  have hB1 : getUser db1.users B = some { b with points := b.points + amt } := by
    rw [husers1, getUser_updateUser, getUser_updateUser_ne _ _ _ _ hABne, hBu]
    rfl
  have hrA1 : resolveRecipient db1.users iA =
      some (A, { a with points := a.points - amt }) := by
    rw [husers1,
      resolveRecipient_updateUser _ B iA
        (fun d => { d with points := b.points + amt }) (fun d => rfl) (fun d => rfl),
      resolveRecipient_updateUser _ A iA
        (fun d => { d with points := a.points - amt }) (fun d => rfl) (fun d => rfl),
      hrA]
    simp [hABne]
  obtain ⟨husers2, _, _, _⟩ := transferPoints_direct_spec hB1 hrA1 h2
  rw [husers2, husers1]
  simp only [updateUser, List.map_map]
  apply map_eq_self_of_mem
  intro p hp
  obtain ⟨pid, d⟩ := p
  simp only [Function.comp_apply]
  by_cases hpa : pid = A
  · subst hpa
    have hd : d = a := getUser_eq_of_mem hnd hA hp
    subst hd
    simp [hABne]
  · by_cases hpb : pid = B
    · subst hpb
      have hd : d = b := getUser_eq_of_mem hnd hBu hp
      subst hd
      simp [hpa]
    · simp [hpa, hpb]

/-- Witness for C9: alice (100 points) sends 40 to bob (30 points) and
bob sends 40 back; both direct transfers succeed and the users collection
returns to its original value. -/
theorem claim_C9_transfer_round_trip_witness :
    transferPoints { emptyDB with
        users := [("uA", mkUser "alice" 100 0 "FBTA" "Not set"),
                  ("uB", mkUser "bob" 30 0 "FBTB" "Not set")] } "uA" "bob" 40 true =
      some { emptyDB with
        users := [("uA", mkUser "alice" 60 0 "FBTA" "Not set"),
                  ("uB", mkUser "bob" 70 0 "FBTB" "Not set")],
        txns := [{ userId := "uA", amount := some (-40),
                   type := TxnType.point_transfer_out,
                   desc := Descr.transferOut 40 "bob",
                   balanceAfter := some (60, 0) },
                 { userId := "uB", amount := some 40,
                   type := TxnType.point_transfer_in,
                   desc := Descr.transferIn 40 "alice",
                   balanceAfter := some (70, 0) }] } ∧
    (∀ db2, transferPoints { emptyDB with
        users := [("uA", mkUser "alice" 60 0 "FBTA" "Not set"),
                  ("uB", mkUser "bob" 70 0 "FBTB" "Not set")],
        txns := [{ userId := "uA", amount := some (-40),
                   type := TxnType.point_transfer_out,
                   desc := Descr.transferOut 40 "bob",
                   balanceAfter := some (60, 0) },
                 { userId := "uB", amount := some 40,
                   type := TxnType.point_transfer_in,
                   desc := Descr.transferIn 40 "alice",
                   balanceAfter := some (70, 0) }] } "uB" "alice" 40 true = some db2 →
      db2.users = ({ emptyDB with
        users := [("uA", mkUser "alice" 100 0 "FBTA" "Not set"),
                  ("uB", mkUser "bob" 30 0 "FBTB" "Not set")] } : DB).users) := by
  refine ⟨by decide, ?_⟩
  intro db2 h2
  exact @claim_C9_transfer_round_trip
    { emptyDB with
      users := [("uA", mkUser "alice" 100 0 "FBTA" "Not set"),
                ("uB", mkUser "bob" 30 0 "FBTB" "Not set")] }
    { emptyDB with
      users := [("uA", mkUser "alice" 60 0 "FBTA" "Not set"),
                ("uB", mkUser "bob" 70 0 "FBTB" "Not set")],
      txns := [{ userId := "uA", amount := some (-40),
                 type := TxnType.point_transfer_out,
                 desc := Descr.transferOut 40 "bob",
                 balanceAfter := some (60, 0) },
               { userId := "uB", amount := some 40,
                 type := TxnType.point_transfer_in,
                 desc := Descr.transferIn 40 "alice",
                 balanceAfter := some (70, 0) }] }
    db2 "uA" "uB" "alice" "bob" 40
    (mkUser "alice" 100 0 "FBTA" "Not set") (mkUser "bob" 30 0 "FBTB" "Not set")
    (by decide) (by decide) (by decide) (by decide) (by decide) h2

/-- The visible referral chain is no longer than its fuel. -/
theorem chainFrom_length_le (us : Users) :
    ∀ (n : Nat) (code : String), (chainFrom us n code).length ≤ n := by
  intro n
  induction n with
  | zero => intro code; exact Nat.le_refl 0
  | succ m ih =>
    intro code
    unfold chainFrom
    by_cases hc : code = "" ∨ code = "Not set"
    · rw [if_pos hc]
      exact Nat.zero_le _
    rw [if_neg hc]
    cases hf : findByReferralCode us code with
    | none => exact Nat.zero_le _
    | some pr =>
      obtain ⟨rid, d⟩ := pr
      simp only [List.length_cons]
      exact Nat.succ_le_succ (ih d.referralCodeFriend)

/-- A balance-only user update (one preserving `referralCode` and
`referralCodeFriend`) does not change the visible referral chain. -/
theorem chainFrom_updateUser (us : Users) (rid : String) (f : UserDoc → UserDoc)
    (hcode : ∀ d, (f d).referralCode = d.referralCode)
    (hfriend : ∀ d, (f d).referralCodeFriend = d.referralCodeFriend) :
    ∀ (n : Nat) (code : String),
      chainFrom (updateUser us rid f) n code = chainFrom us n code := by
  intro n
  induction n with
  | zero => intro code; rfl
  | succ m ih =>
    intro code
    unfold chainFrom
    by_cases hc : code = "" ∨ code = "Not set"
    · rw [if_pos hc, if_pos hc]
    rw [if_neg hc, if_neg hc]
    have hfind : findByReferralCode (updateUser us rid f) code =
        (findByReferralCode us code).map
          (fun p => if p.1 = rid then (p.1, f p.2) else p) :=
      find?_updateUser_pred us rid f (fun d => d.referralCode = code)
        (fun d => by simp [hcode])
    rw [hfind]
    cases hf : findByReferralCode us code with
    | none => rfl
    | some pr =>
      obtain ⟨id2, d2⟩ := pr
      by_cases hk : id2 = rid
      · simp only [Option.map_some', if_pos hk]
        rw [hfriend, ih]
      · simp only [Option.map_some', if_neg hk]
        rw [ih]

/-- The walk's credited list is duplicate-free and avoids the incoming
visited set: the per-invocation visited set makes each referrer credited
at most once, also on cyclic chains. -/
theorem walkReferralChain_credited_nodup (uid : String) :
    ∀ (sched : List (Nat × Int × BalanceField)) (code : String)
      (visited : List String) (us : Users) (ts : List Txn),
      (walkReferralChain uid sched code visited us ts).2.2.Nodup ∧
      ∀ x ∈ (walkReferralChain uid sched code visited us ts).2.2, x ∉ visited := by
  intro sched
  induction sched with
  | nil =>
    intro code visited us ts
    exact ⟨List.nodup_nil, by intro x hx; simp [walkReferralChain] at hx⟩
  | cons e rest ih =>
    obtain ⟨lvl, amt, fld⟩ := e
    intro code visited us ts
    unfold walkReferralChain
    by_cases hc : code = "" ∨ code = "Not set"
    · rw [if_pos hc]
      exact ⟨List.nodup_nil, by intro x hx; simp at hx⟩
    rw [if_neg hc]
    cases hf : findByReferralCode us code with
    | none => exact ⟨List.nodup_nil, by intro x hx; simp at hx⟩
    | some pr =>
      obtain ⟨rid, rdata⟩ := pr
      by_cases hv : rid ∈ visited
      · simp only [if_pos hv]
        exact ⟨List.nodup_nil, by intro x hx; simp at hx⟩
      · simp only [if_neg hv]
        obtain ⟨hrec, havoid⟩ := ih rdata.referralCodeFriend (rid :: visited)
          (updateUser us rid (creditReferrer uid amt fld))
          (ts ++ [referralTxn rid rdata lvl amt fld])
        constructor
        · refine List.nodup_cons.2 ⟨?_, hrec⟩
          intro hmem
          exact havoid rid hmem (List.mem_cons_self _ _)
        · intro x hx
          rcases List.mem_cons.1 hx with rfl | hx2
          · exact hv
          · intro hxv
            exact havoid x hx2 (List.mem_cons_of_mem _ hxv)

/-- The walk credits at most one referrer per schedule level. -/
theorem walkReferralChain_credited_length (uid : String) :
    ∀ (sched : List (Nat × Int × BalanceField)) (code : String)
      (visited : List String) (us : Users) (ts : List Txn),
      (walkReferralChain uid sched code visited us ts).2.2.length ≤ sched.length := by
  intro sched
  induction sched with
  | nil => intro code visited us ts; exact Nat.le_refl 0
  | cons e rest ih =>
    obtain ⟨lvl, amt, fld⟩ := e
    intro code visited us ts
    unfold walkReferralChain
    by_cases hc : code = "" ∨ code = "Not set"
    · rw [if_pos hc]
      exact Nat.zero_le _
    rw [if_neg hc]
    cases hf : findByReferralCode us code with
    | none => exact Nat.zero_le _
    | some pr =>
      obtain ⟨rid, rdata⟩ := pr
      by_cases hv : rid ∈ visited
      · simp only [if_pos hv]
        exact Nat.zero_le _
      · simp only [if_neg hv, List.length_cons]
        exact Nat.succ_le_succ (ih _ _ _ _)

/-- The walk leaves every user outside its credited list untouched. -/
theorem walkReferralChain_untouched (uid : String) :
    ∀ (sched : List (Nat × Int × BalanceField)) (code : String)
      (visited : List String) (us : Users) (ts : List Txn) (x : String),
      x ∉ (walkReferralChain uid sched code visited us ts).2.2 →
      getUser (walkReferralChain uid sched code visited us ts).1 x = getUser us x := by
  intro sched
  induction sched with
  | nil => intro code visited us ts x _; rfl
  | cons e rest ih =>
    obtain ⟨lvl, amt, fld⟩ := e
    intro code visited us ts x hx
    unfold walkReferralChain at hx ⊢
    by_cases hc : code = "" ∨ code = "Not set"
    · rw [if_pos hc]
    rw [if_neg hc] at hx ⊢
    cases hf : findByReferralCode us code with
    | none => rfl
    | some pr =>
      obtain ⟨rid, rdata⟩ := pr
      rw [hf] at hx
      by_cases hv : rid ∈ visited
      · simp only [if_pos hv]
      · simp only [if_neg hv] at hx ⊢
        have hxne : x ≠ rid := by
          intro heq
          subst heq
          exact hx (List.mem_cons_self _ _)
        have hxrest : x ∉ (walkReferralChain uid rest rdata.referralCodeFriend
            (rid :: visited) (updateUser us rid (creditReferrer uid amt fld))
            (ts ++ [referralTxn rid rdata lvl amt fld])).2.2 := by
          intro hmem
          exact hx (List.mem_cons_of_mem _ hmem)
        rw [ih _ _ _ _ x hxrest]
        exact getUser_updateUser_ne _ _ _ _ (fun h => hxne h.symm)

/-- Unfolding equation of `chainFrom` at positive fuel. -/
theorem chainFrom_succ (us : Users) (n : Nat) (code : String) :
    chainFrom us (n + 1) code =
      if code = "" ∨ code = "Not set" then []
      else
        match findByReferralCode us code with
        | Option.none => []
        | some (rid, d) => rid :: chainFrom us n d.referralCodeFriend := rfl

/-- Full specification of the referral walk on a duplicate-free chain:
the credited referrers are exactly the visible chain, one
`referral_bonus_level_N` log entry is appended per credited referrer in
schedule order, and each credited referrer's document receives exactly
its level's `creditReferrer` update. -/
theorem walkReferralChain_spec (uid : String) :
    ∀ (sched : List (Nat × Int × BalanceField)) (code : String)
      (visited : List String) (us : Users) (ts : List Txn),
      (us.map Prod.fst).Nodup →
      (chainFrom us sched.length code).Nodup →
      (∀ x ∈ visited, x ∉ chainFrom us sched.length code) →
      (walkReferralChain uid sched code visited us ts).2.2 =
        chainFrom us sched.length code ∧
      (walkReferralChain uid sched code visited us ts).2.1.map txnSummary =
        ts.map txnSummary ++
          ((chainFrom us sched.length code).zip sched).map
            (fun e => (e.1, TxnType.referral_bonus_level e.2.1, some e.2.2.1)) ∧
      ∀ e ∈ (chainFrom us sched.length code).zip sched,
        ∃ d, getUser us e.1 = some d ∧
          getUser (walkReferralChain uid sched code visited us ts).1 e.1 =
            some (creditReferrer uid e.2.2.1 e.2.2.2 d) := by
  intro sched
  induction sched with
  | nil =>
    intro code visited us ts _ _ _
    refine ⟨rfl, by simp [walkReferralChain, chainFrom, txnSummary], ?_⟩
    intro e he
    simp [chainFrom] at he
  | cons entry rest ih =>
    obtain ⟨lvl, amt, fld⟩ := entry
    intro code visited us ts hnd hnodup hdis
    by_cases hc : code = "" ∨ code = "Not set"
    · have hchain : chainFrom us ((lvl, amt, fld) :: rest).length code = [] := by
        rw [List.length_cons, chainFrom_succ, if_pos hc]
      unfold walkReferralChain
      rw [if_pos hc, hchain]
      refine ⟨rfl, by simp, ?_⟩
      intro e he
      simp at he
    cases hf : findByReferralCode us code with
    | none =>
      have hchain : chainFrom us ((lvl, amt, fld) :: rest).length code = [] := by
        rw [List.length_cons, chainFrom_succ, if_neg hc, hf]
      unfold walkReferralChain
      rw [if_neg hc, hf, hchain]
      refine ⟨rfl, by simp, ?_⟩
      intro e he
      simp at he
    | some pr =>
      obtain ⟨rid, rdata⟩ := pr
      have hchain : chainFrom us ((lvl, amt, fld) :: rest).length code =
          rid :: chainFrom us rest.length rdata.referralCodeFriend := by
        rw [List.length_cons, chainFrom_succ, if_neg hc, hf]
      rw [hchain] at hnodup hdis
      have hnodup2 := List.nodup_cons.1 hnodup
      have hrid_not_tail := hnodup2.1
      have htail_nodup := hnodup2.2
      have hv : rid ∉ visited := by
        intro hvmem
        exact hdis rid hvmem (List.mem_cons_self _ _)
      have hchain1 : chainFrom (updateUser us rid (creditReferrer uid amt fld))
          rest.length rdata.referralCodeFriend =
          chainFrom us rest.length rdata.referralCodeFriend :=
        chainFrom_updateUser us rid (creditReferrer uid amt fld)
          (fun d => rfl) (fun d => rfl) rest.length rdata.referralCodeFriend
      obtain ⟨ihcred, ihtxn, ihbal⟩ := ih rdata.referralCodeFriend (rid :: visited)
        (updateUser us rid (creditReferrer uid amt fld))
        (ts ++ [referralTxn rid rdata lvl amt fld])
        (by rw [updateUser_keys]; exact hnd)
        (by rw [hchain1]; exact htail_nodup)
        (by
          intro x hx
          rw [hchain1]
          rcases List.mem_cons.1 hx with rfl | hx2
          · exact hrid_not_tail
          · intro hmem
            exact hdis x hx2 (List.mem_cons_of_mem _ hmem))
      rw [hchain1] at ihcred ihtxn ihbal
      unfold walkReferralChain
      rw [if_neg hc, hf]
      simp only [if_neg hv]
      rw [hchain]
      refine ⟨?_, ?_, ?_⟩
      · show rid :: _ = rid :: chainFrom us rest.length rdata.referralCodeFriend
        rw [ihcred]
      · show (walkReferralChain uid rest rdata.referralCodeFriend (rid :: visited)
            (updateUser us rid (creditReferrer uid amt fld))
            (ts ++ [referralTxn rid rdata lvl amt fld])).2.1.map txnSummary = _
        rw [ihtxn]
        simp [txnSummary, referralTxn]
      · intro e he
        rw [List.zip_cons_cons] at he
        rcases List.mem_cons.1 he with rfl | he2
        · refine ⟨rdata, getUser_of_mem_nodup hnd (findByReferralCode_mem hf), ?_⟩
          show getUser (walkReferralChain uid rest rdata.referralCodeFriend
            (rid :: visited) (updateUser us rid (creditReferrer uid amt fld))
            (ts ++ [referralTxn rid rdata lvl amt fld])).1 rid = _
          rw [walkReferralChain_untouched uid rest _ _ _ _ rid
            (by rw [ihcred]; exact hrid_not_tail)]
          rw [getUser_updateUser, getUser_of_mem_nodup hnd (findByReferralCode_mem hf)]
          rfl
        · obtain ⟨d, hd1, hd2⟩ := ihbal e he2
          have hene : e.1 ≠ rid := by
            intro heq
            apply hrid_not_tail
            rw [← heq]
            exact (List.of_mem_zip he2).1
          refine ⟨d, ?_, hd2⟩
          rw [← hd1, getUser_updateUser_ne _ _ _ _ (fun h => hene h.symm)]

/-- Claim C3: approving a user whose referrer chain (followed through
`referralCode` links) is duplicate-free of length L ≤ 5 credits exactly
those L ancestors, each exactly once, with the schedule 100/5/5/10/30
(level 1 to `points`, levels 2-5 to `cash`), appending one
`referral_bonus_level_N` transaction per credited ancestor; on any chain,
cyclic ones included, the credited list is duplicate-free (each distinct
ancestor at most once) and the walk terminates within 5 levels
(src/unnamed/part_006 lines 10-87). -/
theorem claim_C3_referral_walk (db : DB) (uid code : String)
    (hnd : (db.users.map Prod.fst).Nodup) :
    (processReferralBonuses db uid code).2.Nodup ∧
    (processReferralBonuses db uid code).2.length ≤ 5 ∧
    referralLevels.map (fun e => e.2.1) = bonusLevels ∧
    referralLevels.map (fun e => e.2.2) = bonusGive ∧
    referralLevels.map (fun e => e.1) = [1, 2, 3, 4, 5] ∧
    ((chainFrom db.users 5 code).Nodup →
      (processReferralBonuses db uid code).2 = chainFrom db.users 5 code ∧
      (processReferralBonuses db uid code).1.txns.map txnSummary =
        db.txns.map txnSummary ++
          ((chainFrom db.users 5 code).zip referralLevels).map
            (fun e => (e.1, TxnType.referral_bonus_level e.2.1, some e.2.2.1)) ∧
      ∀ e ∈ (chainFrom db.users 5 code).zip referralLevels,
        ∃ d, getUser db.users e.1 = some d ∧
          getUser (processReferralBonuses db uid code).1.users e.1 =
            some (creditReferrer uid e.2.2.1 e.2.2.2 d)) := by
  refine ⟨?_, ?_, by decide, by decide, by decide, ?_⟩
  · exact (walkReferralChain_credited_nodup uid referralLevels code [] db.users db.txns).1
  · exact walkReferralChain_credited_length uid referralLevels code [] db.users db.txns
  · intro hchain
    obtain ⟨h1, h2, h3⟩ := walkReferralChain_spec uid referralLevels code [] db.users
      db.txns hnd hchain (by intro x hx; exact absurd hx (List.not_mem_nil x))
    exact ⟨h1, h2, h3⟩

/-- Witness for C3: a duplicate-free chain of length 2 (ann referred by
ben).  Approving "newbie" credits ann 100 points at level 1 and ben 5
cash at level 2, each exactly once, with one log entry per level. -/
theorem claim_C3_referral_walk_witness :
    ((({ emptyDB with users :=
        [("r1", { username := "ann", points := 0, cash := 0, referralCode := "FBTR1",
                  referralCodeFriend := "FBTR2", approved := true, referrals := [] }),
         ("r2", { username := "ben", points := 0, cash := 0, referralCode := "FBTR2",
                  referralCodeFriend := "Not set", approved := true, referrals := [] })] } : DB).users.map
        Prod.fst).Nodup) ∧
    chainFrom ({ emptyDB with users :=
        [("r1", { username := "ann", points := 0, cash := 0, referralCode := "FBTR1",
                  referralCodeFriend := "FBTR2", approved := true, referrals := [] }),
         ("r2", { username := "ben", points := 0, cash := 0, referralCode := "FBTR2",
                  referralCodeFriend := "Not set", approved := true, referrals := [] })] } : DB).users
      5 "FBTR1" = ["r1", "r2"] ∧
    (processReferralBonuses { emptyDB with users :=
        [("r1", { username := "ann", points := 0, cash := 0, referralCode := "FBTR1",
                  referralCodeFriend := "FBTR2", approved := true, referrals := [] }),
         ("r2", { username := "ben", points := 0, cash := 0, referralCode := "FBTR2",
                  referralCodeFriend := "Not set", approved := true, referrals := [] })] }
      "newbie" "FBTR1").2 =
      chainFrom ({ emptyDB with users :=
        [("r1", { username := "ann", points := 0, cash := 0, referralCode := "FBTR1",
                  referralCodeFriend := "FBTR2", approved := true, referrals := [] }),
         ("r2", { username := "ben", points := 0, cash := 0, referralCode := "FBTR2",
                  referralCodeFriend := "Not set", approved := true, referrals := [] })] } : DB).users
        5 "FBTR1" ∧
    getUser (processReferralBonuses { emptyDB with users :=
        [("r1", { username := "ann", points := 0, cash := 0, referralCode := "FBTR1",
                  referralCodeFriend := "FBTR2", approved := true, referrals := [] }),
         ("r2", { username := "ben", points := 0, cash := 0, referralCode := "FBTR2",
                  referralCodeFriend := "Not set", approved := true, referrals := [] })] }
      "newbie" "FBTR1").1.users "r1" =
      some { username := "ann", points := 100, cash := 0, referralCode := "FBTR1",
             referralCodeFriend := "FBTR2", approved := true, referrals := ["newbie"] } ∧
    getUser (processReferralBonuses { emptyDB with users :=
        [("r1", { username := "ann", points := 0, cash := 0, referralCode := "FBTR1",
                  referralCodeFriend := "FBTR2", approved := true, referrals := [] }),
         ("r2", { username := "ben", points := 0, cash := 0, referralCode := "FBTR2",
                  referralCodeFriend := "Not set", approved := true, referrals := [] })] }
      "newbie" "FBTR1").1.users "r2" =
      some { username := "ben", points := 0, cash := 5, referralCode := "FBTR2",
             referralCodeFriend := "Not set", approved := true, referrals := ["newbie"] } :=
  ⟨by decide, by decide,
    ((claim_C3_referral_walk { emptyDB with users :=
        [("r1", { username := "ann", points := 0, cash := 0, referralCode := "FBTR1",
                  referralCodeFriend := "FBTR2", approved := true, referrals := [] }),
         ("r2", { username := "ben", points := 0, cash := 0, referralCode := "FBTR2",
                  referralCodeFriend := "Not set", approved := true, referrals := [] })] }
      "newbie" "FBTR1" (by decide)).2.2.2.2.2 (by decide)).1,
    by decide, by decide⟩
